import Mathlib

/-!
# Dense arithmetic dispatch (`tensor2/gen/dense_arith.go`)

The generator instantiates one template (`denseBinOpRaw`) once per row of the
table `denseBinOps`, producing `{op}DD`, `{op}DS` and `{op}SD`, and emits the two
preparation functions `prepDDOp` and `prepSD` verbatim.  This file embeds the
generated functions: tensors live in a heap indexed by pointers, the kernels
are state transformers on that heap, and every kernel invocation is logged.
-/

namespace DenseArith

/-! ## The operation table -/

/-- The `OpName` column of `denseBinOps`. -/
inductive Op where
  | add | sub | mul | div | pow
  deriving DecidableEq, Repr

/-- The text of an `OpName`, as substituted for `{{.OpName}}`. -/
def Op.name : Op → String
  | .add => "add"
  | .sub => "sub"
  | .mul => "mul"
  | .div => "div"
  | .pow => "pow"

/-- Methods of `Number` taking another `Number` (the `VecVec` column). -/
inductive VVKernel where
  | Add | Sub | Mul | Div | Pow
  deriving DecidableEq, Repr

/-- Methods of `Number` taking a scalar (the `VecScalar` and `ScalarVec` columns). -/
inductive VSKernel where
  | Trans | TransInv | TransInvR | Scale | ScaleInv | ScaleInvR | PowOf | PowOfR
  deriving DecidableEq, Repr

/-- The text of a scalar kernel, as substituted for `{{.VecScalar}}`. -/
def VSKernel.name : VSKernel → String
  | .Trans => "Trans"
  | .TransInv => "TransInv"
  | .TransInvR => "TransInvR"
  | .Scale => "Scale"
  | .ScaleInv => "ScaleInv"
  | .ScaleInvR => "ScaleInvR"
  | .PowOf => "PowOf"
  | .PowOfR => "PowOfR"

/-- A row of the table: `type DenseBinOp struct`. -/
structure DenseBinOp where
  OpName : Op
  VecVec : VVKernel
  VecScalar : VSKernel
  ScalarVec : VSKernel
  deriving DecidableEq, Repr

/-- The table `denseBinOps`. -/
def denseBinOps : List DenseBinOp :=
  [ ⟨.add, .Add, .Trans, .Trans⟩,
    ⟨.sub, .Sub, .TransInv, .TransInvR⟩,
    ⟨.mul, .Mul, .Scale, .Scale⟩,
    ⟨.div, .Div, .ScaleInv, .ScaleInvR⟩,
    ⟨.pow, .Pow, .PowOf, .PowOfR⟩ ]

/-- The template function `title` applied to an `OpName`: the method the
template calls as `rn.{{title .OpName}}` and `safe{{title .OpName}}`. -/
def title : Op → VVKernel
  | .add => .Add
  | .sub => .Sub
  | .mul => .Mul
  | .div => .Div
  | .pow => .Pow

/-! ## Tensors, heap and errors -/

abbrev Shape := List Nat
abbrev Dtype := String
/-- A `*Dense`: an index into the heap; an index outside the heap is a nil pointer. -/
abbrev Ref := Nat

/-- The `data` field of a `Dense`: either a `Number` (a typed numeric buffer) or
some other array, for which the assertion `data.(Number)` fails. -/
inductive Data (α : Type) where
  | other : Data α
  | number (t : Dtype) (buf : List α) : Data α
  deriving DecidableEq, Repr

/-- The fields of `Dense` the generated code reads: `t`, `Shape()` and `data`. -/
structure Dense (α : Type) where
  t : Dtype
  shape : Shape
  data : Data α
  deriving DecidableEq, Repr

/-- A scalar operand (`interface{}`): a value together with its dynamic type. -/
structure Scalar (α : Type) where
  t : Dtype
  v : α
  deriving DecidableEq, Repr

/-- Why a kernel reported an error. -/
inductive KernelFault where
  | typeMismatch | sizeMismatch
  deriving DecidableEq, Repr

/-- The errors the generated code can return. -/
inductive Err where
  -- noopError{}
  | noopError
  -- errors.Errorf(shapeMismatch, a.Shape(), b.Shape())
  | shapeMismatch (a b : Shape)
  -- the error of reuseDenseCheck
  | reuseShapeMismatch (reuse as : Shape)
  -- errors.Errorf(msg)
  | errorf (msg : String)
  -- errors.Errorf("Unknown state reached: Safe %t, Incr %t, Reuse %t", safe, incr, reuse)
  | unknownState (safe incr : Bool) (reuse : Option Ref)
  -- an error reported by a kernel
  | kernel (fault : KernelFault)
  -- errors.Wrap(cause, msg)
  | wrap (cause : Err) (msg : String)
  -- errors.Wrapf(cause, opFail, arg)
  | wrapOpFail (cause : Err) (arg : String)
  -- errors.Wrapf(cause, format, args...); a %T argument prints a type
  | wrapf (cause : Err) (format : String) (args : List Dtype)
  deriving DecidableEq, Repr

/-- One kernel invocation, as recorded in the log. -/
inductive Call (α : Type) where
  | vv (k : VVKernel) (recv other : Ref)
  | vs (k : VSKernel) (recv : Ref) (s : Scalar α)
  | safeVV (k : VVKernel) (a b : Ref) (dest : Option Ref)
  | safeVS (k : VSKernel) (a : Ref) (s : Scalar α) (dest : Option Ref)
  deriving DecidableEq, Repr

/-- The tensors in memory and the kernel invocations made so far (oldest first). -/
structure State (α : Type) where
  heap : List (Dense α)
  calls : List (Call α)
  deriving DecidableEq, Repr

/-- What a generated function does: it returns `(retVal, err)` or panics. -/
inductive Result where
  | ret (retVal : Option Ref) (err : Option Err)
  | panicked
  deriving DecidableEq, Repr

/-- The collaborators outside the generator: the arithmetic on elements, and
the stale contents of a buffer handed out by the allocator. -/
structure Env (α : Type) where
  elem : Op → α → α → α
  garbage : Nat → α

/-! ## Kernels

The element loops are not part of the generator.  They are modelled from their
contract: a method of `Number` overwrites its receiver element-wise, a `safe`
kernel writes into a destination and leaves its operands alone, and a kernel
reports an error, touching nothing, when the element types or the sizes of its
arguments disagree.
-/

/-- The `Number` behind an interface value that may be nil. -/
def numberOf? {α : Type} (h : List (Dense α)) (r : Option Ref) : Option (Dtype × List α) :=
  match r with
  | some r =>
    match h[r]? with
    | some d =>
      match d.data with
      | .number t buf => some (t, buf)
      | .other => none
    | none => none
  | none => none

/-- The `Number` behind a tensor: the element type and the buffer of its `data`. -/
def numberOf {α : Type} (h : List (Dense α)) (r : Ref) : Option (Dtype × List α) :=
  match h[r]? with
  | some d =>
    match d.data with
    | .number t buf => some (t, buf)
    | .other => none
  | none => none

/-- Overwrite the elements of the buffer of tensor `r`. -/
def writeBuf {α : Type} (h : List (Dense α)) (r : Ref) (buf : List α) : List (Dense α) :=
  match h[r]? with
  | some d =>
    match d.data with
    | .number t _ => h.set r { d with data := .number t buf }
    | .other => h
  | none => h

/-- Append an invocation to the log. -/
def State.logged {α : Type} (s : State α) (c : Call α) : State α :=
  { s with calls := s.calls ++ [c] }

/-- Modelled from the spec: the arithmetic operation a `Number`-`Number` kernel
performs on each pair of elements. -/
def VVKernel.op : VVKernel → Op
  | .Add => .add
  | .Sub => .sub
  | .Mul => .mul
  | .Div => .div
  | .Pow => .pow

/-- Modelled from the spec: what a scalar kernel does to one element `x` of its
receiver, given the scalar `c`; the kernels with suffix `R` put the scalar on
the left. -/
def VSKernel.apply {α : Type} (E : Env α) (k : VSKernel) (x c : α) : α :=
  match k with
  | .Trans => E.elem .add x c
  | .TransInv => E.elem .sub x c
  | .TransInvR => E.elem .sub c x
  | .Scale => E.elem .mul x c
  | .ScaleInv => E.elem .div x c
  | .ScaleInvR => E.elem .div c x
  | .PowOf => E.elem .pow x c
  | .PowOfR => E.elem .pow c x

/-- Modelled from the spec: the mutating kernel `recv.K(other)`, which applies
the operation element-wise and overwrites the receiver. -/
def VVKernel.run {α : Type} (E : Env α) (k : VVKernel) (s : State α) (recv other : Ref) :
    State α × Option Err :=
  let s1 := s.logged (.vv k recv other)
  match numberOf s.heap recv, numberOf s.heap other with
  | some (t, x), some (u, y) =>
    if t ≠ u then (s1, some (.kernel .typeMismatch))
    else if x.length ≠ y.length then (s1, some (.kernel .sizeMismatch))
    else ({ s1 with heap := writeBuf s.heap recv (List.zipWith (E.elem k.op) x y) }, none)
  | _, _ => (s1, some (.kernel .typeMismatch))

/-- Modelled from the spec: the mutating scalar kernel `recv.K(c)`; the type of
the scalar must be the element type of the receiver. -/
def VSKernel.run {α : Type} (E : Env α) (k : VSKernel) (s : State α) (recv : Ref)
    (c : Scalar α) : State α × Option Err :=
  let s1 := s.logged (.vs k recv c)
  match numberOf s.heap recv with
  | some (t, x) =>
    if t ≠ c.t then (s1, some (.kernel .typeMismatch))
    else ({ s1 with heap := writeBuf s.heap recv (x.map (fun v => k.apply E v c.v)) }, none)
  | none => (s1, some (.kernel .typeMismatch))

/-- Modelled from the spec: the writing kernel `safeK(a, b, dest)`, which writes
`a OP b` into the destination without mutating `a`. -/
def VVKernel.runSafe {α : Type} (E : Env α) (k : VVKernel) (s : State α) (a b : Ref)
    (dest : Option Ref) : State α × Option Err :=
  let s1 := s.logged (.safeVV k a b dest)
  match numberOf s.heap a, numberOf s.heap b, dest, numberOf? s.heap dest with
  | some (t, x), some (u, y), some dest, some (w, z) =>
    if t ≠ u ∨ t ≠ w then (s1, some (.kernel .typeMismatch))
    else if x.length ≠ y.length ∨ x.length ≠ z.length then (s1, some (.kernel .sizeMismatch))
    else ({ s1 with heap := writeBuf s.heap dest (List.zipWith (E.elem k.op) x y) }, none)
  | _, _, _, _ => (s1, some (.kernel .typeMismatch))

/-- Modelled from the spec: the writing scalar kernel `safeK(a, c, dest)`. -/
def VSKernel.runSafe {α : Type} (E : Env α) (k : VSKernel) (s : State α) (a : Ref)
    (c : Scalar α) (dest : Option Ref) : State α × Option Err :=
  let s1 := s.logged (.safeVS k a c dest)
  match numberOf s.heap a, dest, numberOf? s.heap dest with
  | some (t, x), some dest, some (w, z) =>
    if t ≠ c.t ∨ t ≠ w then (s1, some (.kernel .typeMismatch))
    else if x.length ≠ z.length then (s1, some (.kernel .sizeMismatch))
    else ({ s1 with heap := writeBuf s.heap dest (x.map (fun v => k.apply E v c.v)) }, none)
  | _, _, _ => (s1, some (.kernel .typeMismatch))

/-- A method call `rn.K(other)` on a `Number` interface value: calling a method
on the nil interface panics (`none`). -/
def callVV {α : Type} (E : Env α) (k : VVKernel) (s : State α) (rn : Option Ref) (other : Ref) :
    Option (State α × Option Err) :=
  match rn with
  | none => none
  | some r => some (k.run E s r other)

/-- A method call `rn.K(c)` with a scalar on a `Number` interface value. -/
def callVS {α : Type} (E : Env α) (k : VSKernel) (s : State α) (rn : Option Ref)
    (c : Scalar α) : Option (State α × Option Err) :=
  match rn with
  | none => none
  | some r => some (k.run E s r c)

/-- Modelled from the spec: the allocator `recycledDense(t, shape)` returns a
tensor of the requested element type and shape, not previously reachable; its
buffer has the size of the shape and arbitrary contents. -/
def recycledDense {α : Type} (E : Env α) (s : State α) (t : Dtype) (shape : Shape) :
    State α × Ref :=
  ({ s with heap := s.heap ++ [⟨t, shape, .number t ((List.range shape.prod).map E.garbage)⟩] },
    s.heap.length)

/-! ## Operand preparation (`densBinOpPrep`) -/

/-- The triple `parseSafeReuse(opts...)` extracts from the options:
`safe, incr, reuseT`.  The reuse target, when present, is a `*Dense`. -/
structure FuncOpts where
  safe : Bool
  incr : Bool
  reuseT : Option Ref
  deriving DecidableEq, Repr

/-- Modelled from the spec: `Shape.Eq`, equality of shapes dimension-wise, in order. -/
def Shape.Eq (s t : Shape) : Bool := decide (s = t)

/-- Modelled from the spec: `reuseDenseCheck(reuse, as)` is a pure validation
that fails when the shape of the reuse target differs from the shape of `as`. -/
def reuseDenseCheck {α : Type} (reuse as : Dense α) : Option Err :=
  if reuse.shape = as.shape then none else some (.reuseShapeMismatch reuse.shape as.shape)

/-- The assertion `d.data.(Number)` succeeds. -/
def Dense.isNumber {α : Type} (d : Dense α) : Bool :=
  match d.data with
  | .number _ _ => true
  | .other => false

/-- The values `prepDDOp` returns beside `err`.  A `Number` is denoted by the
tensor whose buffer it views; `none` is the nil interface. -/
structure PrepDD where
  an : Ref
  bn : Ref
  rn : Option Ref
  reuse : Option Ref
  safe : Bool
  toReuse : Bool
  incr : Bool
  deriving DecidableEq, Repr

/-- The values `prepSD` returns beside `err`. -/
structure PrepSD where
  an : Ref
  rn : Option Ref
  reuse : Option Ref
  safe : Bool
  toReuse : Bool
  incr : Bool
  deriving DecidableEq, Repr

/-- Outcome of a preparation function: its values with a nil `err`, or a
non-nil `err`, or a panic on a nil pointer. -/
inductive Prep (β : Type) where
  | ok (p : β)
  | err (e : Err)
  | panicked
  deriving DecidableEq, Repr

/-- The function `prepDDOp(a, b, opts...)`. -/
def prepDDOp {α : Type} (h : List (Dense α)) (a b : Ref) (o : FuncOpts) : Prep PrepDD :=
  match h[a]? with
  | none => .panicked
  | some da =>
    if !da.isNumber then .err .noopError
    else
      match h[b]? with
      | none => .panicked
      | some db =>
        if !db.isNumber then .err .noopError
        else if !(Shape.Eq da.shape db.shape) then .err (.shapeMismatch da.shape db.shape)
        else
          match o.reuseT with
          | none => .ok ⟨a, b, none, none, o.safe, false, o.incr⟩
          | some r =>
            match h[r]? with
            | none => .panicked
            | some dr =>
              match reuseDenseCheck dr da with
              | some e => .err (.wrap e "Cannot add with reuse")
              | none =>
                if !dr.isNumber then .err (.errorf "Reuse is not a number")
                else .ok ⟨a, b, some r, some r, o.safe, true, o.incr⟩

/-- The function `prepSD(a, opts...)`. -/
def prepSD {α : Type} (h : List (Dense α)) (a : Ref) (o : FuncOpts) : Prep PrepSD :=
  match h[a]? with
  | none => .panicked
  | some da =>
    if !da.isNumber then .err .noopError
    else
      match o.reuseT with
      | none => .ok ⟨a, none, none, o.safe, false, o.incr⟩
      | some r =>
        match h[r]? with
        | none => .panicked
        | some dr =>
          match reuseDenseCheck dr da with
          | some e => .err (.wrap e "Cannot add with reuse")
          | none =>
            if !dr.isNumber then .err (.errorf "Reuse is not a number")
            else .ok ⟨a, some r, some r, o.safe, true, o.incr⟩

/-! ## The dispatcher (`denseBinOpRaw`) -/

/-- The cases of the tagless `switch` in the template. -/
inductive Case where
  | incr | toReuse | safe | notSafe | default
  deriving DecidableEq, Repr

/-- The tagless `switch`: the cases `incr`, `toReuse`, `safe`, `!safe` are tried
in this order and the first true one is taken; `default` is taken when none is. -/
def switchCase (incr toReuse safe : Bool) : Case :=
  if incr then .incr
  else if toReuse then .toReuse
  else if safe then .safe
  else if !safe then .notSafe
  else .default

/-- The message `"{{.OpName}}DD. Unable to {{.OpName}} Array x to Array reused"`. -/
def msgDD (bo : DenseBinOp) (what : String) : String :=
  bo.OpName.name ++ "DD. Unable to " ++ what

/-- Body of `case incr` in `{{.OpName}}DD`. -/
def ddIncr {α : Type} (E : Env α) (bo : DenseBinOp) (s : State α) (b : Ref) (p : PrepDD) :
    State α × Result :=
  if p.reuse = some b then
    match callVV E (title bo.OpName) s p.rn p.bn with
    | none => (s, .panicked)
    | some (s1, some e) =>
      (s1, .ret none (some (.wrapOpFail e (msgDD bo (bo.OpName.name ++ " Array b to Array reused")))))
    | some (s1, none) =>
      match callVV E (title bo.OpName) s1 p.rn p.an with
      | none => (s1, .panicked)
      | some (s2, some e) =>
        (s2, .ret none (some (.wrapOpFail e (msgDD bo (bo.OpName.name ++ " Array a to Array reused")))))
      | some (s2, none) => (s2, .ret p.reuse none)
  else
    match callVV E (title bo.OpName) s p.rn p.an with
    | none => (s, .panicked)
    | some (s1, some e) =>
      (s1, .ret none (some (.wrapOpFail e (msgDD bo (bo.OpName.name ++ " Array a to Array reused")))))
    | some (s1, none) =>
      match callVV E (title bo.OpName) s1 p.rn p.bn with
      | none => (s1, .panicked)
      | some (s2, some e) =>
        (s2, .ret none (some (.wrapOpFail e (msgDD bo (bo.OpName.name ++ " Array b to Array reused")))))
      | some (s2, none) => (s2, .ret p.reuse none)

/-- Body of `case toReuse` in `{{.OpName}}DD`. -/
def ddReuse {α : Type} (E : Env α) (bo : DenseBinOp) (s : State α) (p : PrepDD) :
    State α × Result :=
  match (title bo.OpName).runSafe E s p.an p.bn p.rn with
  | (s1, some e) =>
    (s1, .ret none (some (.wrapOpFail e
      (msgDD bo (bo.OpName.name ++ " Array a and Array b to Array reused")))))
  | (s1, none) => (s1, .ret p.reuse none)

/-- Body of `case safe` in `{{.OpName}}DD`. -/
def ddSafe {α : Type} (E : Env α) (bo : DenseBinOp) (s : State α) (a : Ref) (p : PrepDD) :
    State α × Result :=
  match s.heap[a]? with
  | none => (s, .panicked)
  | some da =>
    let (s1, retVal) := recycledDense E s da.t da.shape
    match (title bo.OpName).runSafe E s1 p.an p.bn (some retVal) with
    | (s2, some e) =>
      (s2, .ret (some retVal) (some (.wrapOpFail e
        (msgDD bo ("safely " ++ bo.OpName.name ++ " Array a and b to rn")))))
    | (s2, none) => (s2, .ret (some retVal) none)

/-- Body of `case !safe` in `{{.OpName}}DD`. -/
def ddInPlace {α : Type} (E : Env α) (bo : DenseBinOp) (s : State α) (a : Ref) (p : PrepDD) :
    State α × Result :=
  match callVV E (title bo.OpName) s (some p.an) p.bn with
  | none => (s, .panicked)
  | some (s1, some e) =>
    (s1, .ret none (some (.wrapOpFail e
      (msgDD bo ("safely " ++ bo.OpName.name ++ " Array a to Array reused")))))
  | some (s1, none) => (s1, .ret (some a) none)

/-- The generated function `{{.OpName}}DD(a, b, opts...)`. -/
def DD {α : Type} (E : Env α) (bo : DenseBinOp) (s : State α) (a b : Ref) (o : FuncOpts) :
    State α × Result :=
  match prepDDOp s.heap a b o with
  | .panicked => (s, .panicked)
  | .err e => (s, .ret none (some e))
  | .ok p =>
    match switchCase p.incr p.toReuse p.safe with
    | .incr => ddIncr E bo s b p
    | .toReuse => ddReuse E bo s p
    | .safe => ddSafe E bo s a p
    | .notSafe => ddInPlace E bo s a p
    | .default => (s, .ret none (some (.unknownState p.safe p.incr p.reuse)))

/-- Body of `case incr` in `{{.OpName}}DS`. -/
def dsIncr {α : Type} (E : Env α) (bo : DenseBinOp) (s : State α) (b : Scalar α) (p : PrepSD) :
    State α × Result :=
  match callVV E (title bo.OpName) s p.rn p.an with
  | none => (s, .panicked)
  | some (s1, some e) =>
    (s1, .ret none (some (.wrapf e
      (bo.OpName.name ++ "DS. Unable to " ++ bo.OpName.name ++ " Array a to the reuse") [])))
  | some (s1, none) =>
    match callVS E bo.VecScalar s1 p.rn b with
    | none => (s1, .panicked)
    | some (s2, some e) =>
      (s2, .ret none (some (.wrapf e
        (bo.OpName.name ++ "DS. Unable to " ++ bo.VecScalar.name ++ " the Array reuse by b of %T")
        [b.t])))
    | some (s2, none) => (s2, .ret p.reuse none)

/-- Body of `case toReuse` in `{{.OpName}}DS`. -/
def dsReuse {α : Type} (E : Env α) (bo : DenseBinOp) (s : State α) (b : Scalar α) (p : PrepSD) :
    State α × Result :=
  match bo.VecScalar.runSafe E s p.an b p.rn with
  | (s1, some e) => (s1, .ret none (some (.wrapf e (bo.OpName.name ++ "DS") [])))
  | (s1, none) => (s1, .ret p.reuse none)

/-- Body of `case safe` in `{{.OpName}}DS`. -/
def dsSafe {α : Type} (E : Env α) (bo : DenseBinOp) (s : State α) (a : Ref) (b : Scalar α)
    (p : PrepSD) : State α × Result :=
  match s.heap[a]? with
  | none => (s, .panicked)
  | some da =>
    let (s1, retVal) := recycledDense E s da.t da.shape
    match bo.VecScalar.runSafe E s1 p.an b (some retVal) with
    | (s2, some e) =>
      (s2, .ret (some retVal) (some (.wrapf e
        (bo.OpName.name ++ "DS. Unable to safely " ++ bo.OpName.name ++ " ") [])))
    | (s2, none) => (s2, .ret (some retVal) none)

/-- Body of `case !safe` in `{{.OpName}}DS`: the error of the kernel is returned
as it is, together with `a`. -/
def dsInPlace {α : Type} (E : Env α) (bo : DenseBinOp) (s : State α) (a : Ref) (b : Scalar α)
    (p : PrepSD) : State α × Result :=
  match callVS E bo.VecScalar s (some p.an) b with
  | none => (s, .panicked)
  | some (s1, err) => (s1, .ret (some a) err)

/-- The generated function `{{.OpName}}DS(a, b, opts...)`. -/
def DS {α : Type} (E : Env α) (bo : DenseBinOp) (s : State α) (a : Ref) (b : Scalar α)
    (o : FuncOpts) : State α × Result :=
  match prepSD s.heap a o with
  | .panicked => (s, .panicked)
  | .err e => (s, .ret none (some e))
  | .ok p =>
    match switchCase p.incr p.toReuse p.safe with
    | .incr => dsIncr E bo s b p
    | .toReuse => dsReuse E bo s b p
    | .safe => dsSafe E bo s a b p
    | .notSafe => dsInPlace E bo s a b p
    | .default => (s, .ret none (some (.unknownState p.safe p.incr p.reuse)))

/-- Body of `case incr` in `{{.OpName}}SD`; `p.an` is the view `bn` of the tensor `b`. -/
def sdIncr {α : Type} (E : Env α) (bo : DenseBinOp) (s : State α) (a : Scalar α) (p : PrepSD) :
    State α × Result :=
  match callVV E (title bo.OpName) s p.rn p.an with
  | none => (s, .panicked)
  | some (s1, some e) =>
    (s1, .ret none (some (.wrapf e
      (bo.OpName.name ++ "SD. Unable to " ++ bo.OpName.name ++ " Array b to the reuse") [])))
  | some (s1, none) =>
    match callVS E bo.ScalarVec s1 p.rn a with
    | none => (s1, .panicked)
    | some (s2, some e) =>
      (s2, .ret none (some (.wrapf e
        (bo.OpName.name ++ "SD. Unable to " ++ bo.VecScalar.name ++ " the Array reuse by a of %T")
        [a.t])))
    | some (s2, none) => (s2, .ret p.reuse none)

/-- Body of `case toReuse` in `{{.OpName}}SD`: after a kernel error the function
does not return early, so the reuse target is returned beside the error. -/
def sdReuse {α : Type} (E : Env α) (bo : DenseBinOp) (s : State α) (a : Scalar α) (p : PrepSD) :
    State α × Result :=
  match bo.ScalarVec.runSafe E s p.an a p.rn with
  | (s1, some e) => (s1, .ret p.reuse (some (.wrapf e (bo.OpName.name ++ "SD") [])))
  | (s1, none) => (s1, .ret p.reuse none)

/-- Body of `case safe` in `{{.OpName}}SD`. -/
def sdSafe {α : Type} (E : Env α) (bo : DenseBinOp) (s : State α) (a : Scalar α) (b : Ref)
    (p : PrepSD) : State α × Result :=
  match s.heap[b]? with
  | none => (s, .panicked)
  | some db =>
    let (s1, retVal) := recycledDense E s db.t db.shape
    match bo.ScalarVec.runSafe E s1 p.an a (some retVal) with
    | (s2, some e) =>
      (s2, .ret (some retVal) (some (.wrapf e
        (bo.OpName.name ++ "SD. Unable to safely " ++ bo.OpName.name ++ " ") [])))
    | (s2, none) => (s2, .ret (some retVal) none)

/-- Body of `case !safe` in `{{.OpName}}SD`. -/
def sdInPlace {α : Type} (E : Env α) (bo : DenseBinOp) (s : State α) (a : Scalar α) (b : Ref)
    (p : PrepSD) : State α × Result :=
  match callVS E bo.ScalarVec s (some p.an) a with
  | none => (s, .panicked)
  | some (s1, err) => (s1, .ret (some b) err)

/-- The generated function `{{.OpName}}SD(a, b, opts...)`. -/
def SD {α : Type} (E : Env α) (bo : DenseBinOp) (s : State α) (a : Scalar α) (b : Ref)
    (o : FuncOpts) : State α × Result :=
  match prepSD s.heap b o with
  | .panicked => (s, .panicked)
  | .err e => (s, .ret none (some e))
  | .ok p =>
    match switchCase p.incr p.toReuse p.safe with
    | .incr => sdIncr E bo s a p
    | .toReuse => sdReuse E bo s a p
    | .safe => sdSafe E bo s a b p
    | .notSafe => sdInPlace E bo s a b p
    | .default => (s, .ret none (some (.unknownState p.safe p.incr p.reuse)))

/-! ## A concrete instance: natural-number elements -/

/-- Element arithmetic on natural numbers (subtraction truncates at zero,
division rounds down); recycled buffers hold zeros. -/
def natEnv : Env Nat where
  elem := fun op x y =>
    match op with
    | .add => x + y
    | .sub => x - y
    | .mul => x * y
    | .div => x / y
    | .pow => x ^ y
  garbage := fun _ => 0

/-- Element arithmetic on integers: division truncates toward zero, and a
negative exponent counts as zero; recycled buffers hold zeros. -/
def intEnv : Env Int where
  elem := fun op x y =>
    match op with
    | .add => x + y
    | .sub => x - y
    | .mul => x * y
    | .div => x.tdiv y
    | .pow => x ^ y.toNat
  garbage := fun _ => 0

/-- A one-dimensional tensor of element type `"int"`. -/
def vec (buf : List Nat) : Dense Nat := ⟨"int", [buf.length], .number "int" buf⟩

/-- The row of the table for an operation. -/
def rowOf (op : Op) : DenseBinOp :=
  match op with
  | .add => ⟨.add, .Add, .Trans, .Trans⟩
  | .sub => ⟨.sub, .Sub, .TransInv, .TransInvR⟩
  | .mul => ⟨.mul, .Mul, .Scale, .Scale⟩
  | .div => ⟨.div, .Div, .ScaleInv, .ScaleInvR⟩
  | .pow => ⟨.pow, .Pow, .PowOf, .PowOfR⟩

/-- The priority order of the paths as the specification words it: increment
first, then reuse, then safe, and in-place otherwise. -/
def specPath (incr reusePresent safe : Bool) : Case :=
  if incr then .incr
  else if reusePresent then .toReuse
  else if safe then .safe
  else .notSafe

/-! ## Facts about preparation -/

theorem prepDDOp_ok {α : Type} {h : List (Dense α)} {a b : Ref} {o : FuncOpts} {p : PrepDD}
    (hp : prepDDOp h a b o = .ok p) :
    p = ⟨a, b, o.reuseT, o.reuseT, o.safe, o.reuseT.isSome, o.incr⟩ := by
  unfold prepDDOp at hp
  repeat' split at hp
  all_goals simp_all

theorem prepSD_ok {α : Type} {h : List (Dense α)} {a : Ref} {o : FuncOpts} {p : PrepSD}
    (hp : prepSD h a o = .ok p) :
    p = ⟨a, o.reuseT, o.reuseT, o.safe, o.reuseT.isSome, o.incr⟩ := by
  unfold prepSD at hp
  repeat' split at hp
  all_goals simp_all

theorem switchCase_eq_specPath (incr toReuse safe : Bool) :
    switchCase incr toReuse safe = specPath incr toReuse safe := by
  cases incr <;> cases toReuse <;> cases safe <;> rfl

/-! ## Facts about the heap and the kernels -/

theorem numberOf_of_get {α : Type} {h : List (Dense α)} {r : Ref} {td : Dtype} {S : Shape}
    {t : Dtype} {x : List α} (hr : h[r]? = some ⟨td, S, .number t x⟩) :
    numberOf h r = some (t, x) := by
  simp [numberOf, hr]

theorem numberOf?_of_get {α : Type} {h : List (Dense α)} {r : Ref} {td : Dtype} {S : Shape}
    {t : Dtype} {x : List α} (hr : h[r]? = some ⟨td, S, .number t x⟩) :
    numberOf? h (some r) = some (t, x) := by
  simp [numberOf?, hr]

theorem writeBuf_self {α : Type} {h : List (Dense α)} {r : Ref} {td : Dtype} {S : Shape}
    {t : Dtype} {x : List α} (hr : h[r]? = some ⟨td, S, .number t x⟩) (buf : List α) :
    (writeBuf h r buf)[r]? = some ⟨td, S, .number t buf⟩ := by
  have hlt : r < h.length := by
    rcases List.getElem?_eq_some.1 hr with ⟨hlt, _⟩
    exact hlt
  simp [writeBuf, hr, List.getElem?_set_self hlt]

theorem writeBuf_other {α : Type} (h : List (Dense α)) {r q : Ref} (hq : q ≠ r) (buf : List α) :
    (writeBuf h r buf)[q]? = h[q]? := by
  unfold writeBuf
  split
  · split
    · exact List.getElem?_set_ne (Ne.symm hq)
    · rfl
  · rfl

theorem get_append_old {α : Type} {h : List (Dense α)} {r : Ref} {d : Dense α}
    (hr : h[r]? = some d) (e : Dense α) : (h ++ [e])[r]? = some d := by
  have hlt : r < h.length := by
    rcases List.getElem?_eq_some.1 hr with ⟨hlt, _⟩
    exact hlt
  rw [List.getElem?_append_left hlt]
  exact hr

theorem get_append_new {α : Type} (h : List (Dense α)) (e : Dense α) :
    (h ++ [e])[h.length]? = some e := by
  simp

theorem ne_length_of_get {α : Type} {h : List (Dense α)} {r : Ref} {d : Dense α}
    (hr : h[r]? = some d) : h.length ≠ r := by
  rcases List.getElem?_eq_some.1 hr with ⟨hlt, _⟩
  omega

theorem title_op (op : Op) : (title op).op = op := by
  cases op <;> rfl

theorem runVV_ok {α : Type} (E : Env α) (k : VVKernel) (s : State α) {recv other : Ref}
    {td tb : Dtype} {Sd Sb : Shape} {t : Dtype} {z y : List α}
    (hd : s.heap[recv]? = some ⟨td, Sd, .number t z⟩)
    (hb : s.heap[other]? = some ⟨tb, Sb, .number t y⟩) (hlen : z.length = y.length) :
    k.run E s recv other =
      (⟨writeBuf s.heap recv (List.zipWith (E.elem k.op) z y), s.calls ++ [.vv k recv other]⟩,
        none) := by
  simp [VVKernel.run, numberOf_of_get hd, numberOf_of_get hb, hlen, State.logged]

theorem runVS_ok {α : Type} (E : Env α) (k : VSKernel) (s : State α) {recv : Ref}
    {td : Dtype} {Sd : Shape} {t : Dtype} {z : List α} (c : Scalar α)
    (hd : s.heap[recv]? = some ⟨td, Sd, .number t z⟩) (hc : c.t = t) :
    k.run E s recv c =
      (⟨writeBuf s.heap recv (z.map (fun v => k.apply E v c.v)), s.calls ++ [.vs k recv c]⟩,
        none) := by
  simp [VSKernel.run, numberOf_of_get hd, hc, State.logged]

theorem runSafeVV_ok {α : Type} (E : Env α) (k : VVKernel) (s : State α) {a b dest : Ref}
    {ta tb td : Dtype} {Sa Sb Sd : Shape} {t : Dtype} {x y z : List α}
    (ha : s.heap[a]? = some ⟨ta, Sa, .number t x⟩)
    (hb : s.heap[b]? = some ⟨tb, Sb, .number t y⟩)
    (hd : s.heap[dest]? = some ⟨td, Sd, .number t z⟩)
    (hxy : x.length = y.length) (hxz : x.length = z.length) :
    k.runSafe E s a b (some dest) =
      (⟨writeBuf s.heap dest (List.zipWith (E.elem k.op) x y),
        s.calls ++ [.safeVV k a b (some dest)]⟩, none) := by
  have hyz : y.length = z.length := hxy.symm.trans hxz
  simp [VVKernel.runSafe, numberOf_of_get ha, numberOf_of_get hb, numberOf?_of_get hd, hxy, hyz,
    State.logged]

theorem runSafeVS_ok {α : Type} (E : Env α) (k : VSKernel) (s : State α) {a dest : Ref}
    {ta td : Dtype} {Sa Sd : Shape} {t : Dtype} {x z : List α} (c : Scalar α)
    (ha : s.heap[a]? = some ⟨ta, Sa, .number t x⟩)
    (hd : s.heap[dest]? = some ⟨td, Sd, .number t z⟩)
    (hc : c.t = t) (hxz : x.length = z.length) :
    k.runSafe E s a c (some dest) =
      (⟨writeBuf s.heap dest (x.map (fun v => k.apply E v c.v)),
        s.calls ++ [.safeVS k a c (some dest)]⟩, none) := by
  simp [VSKernel.runSafe, numberOf_of_get ha, numberOf?_of_get hd, hc, hxz, State.logged]

theorem prepDDOp_numeric {α : Type} {h : List (Dense α)} {a b : Ref} {ta tb : Dtype}
    {S : Shape} {t u : Dtype} {x y : List α}
    (ha : h[a]? = some ⟨ta, S, .number t x⟩) (hb : h[b]? = some ⟨tb, S, .number u y⟩)
    (safe incr : Bool) :
    prepDDOp h a b ⟨safe, incr, none⟩ = .ok ⟨a, b, none, none, safe, false, incr⟩ := by
  simp [prepDDOp, ha, hb, Dense.isNumber, Shape.Eq]

theorem prepDDOp_reuse {α : Type} {h : List (Dense α)} {a b d : Ref} {ta tb td : Dtype}
    {S : Shape} {t u w : Dtype} {x y z : List α}
    (ha : h[a]? = some ⟨ta, S, .number t x⟩) (hb : h[b]? = some ⟨tb, S, .number u y⟩)
    (hd : h[d]? = some ⟨td, S, .number w z⟩) (safe incr : Bool) :
    prepDDOp h a b ⟨safe, incr, some d⟩ = .ok ⟨a, b, some d, some d, safe, true, incr⟩ := by
  simp [prepDDOp, ha, hb, hd, Dense.isNumber, Shape.Eq, reuseDenseCheck]

theorem prepSD_reuse {α : Type} {h : List (Dense α)} {a d : Ref} {ta td : Dtype}
    {S : Shape} {t w : Dtype} {x z : List α}
    (ha : h[a]? = some ⟨ta, S, .number t x⟩)
    (hd : h[d]? = some ⟨td, S, .number w z⟩) (safe incr : Bool) :
    prepSD h a ⟨safe, incr, some d⟩ = .ok ⟨a, some d, some d, safe, true, incr⟩ := by
  simp [prepSD, ha, hd, Dense.isNumber, reuseDenseCheck]

/-! ## Facts about the increment path -/

theorem zipWith_zipWith_assoc {α : Type} (f : α → α → α)
    (hassoc : ∀ u v w, f (f u v) w = f u (f v w)) (z x y : List α) :
    List.zipWith f (List.zipWith f z x) y = List.zipWith f z (List.zipWith f x y) := by
  induction z generalizing x y with
  | nil => simp
  | cons z0 zs ih =>
    cases x with
    | nil => simp
    | cons x0 xs =>
      cases y with
      | nil => simp
      | cons y0 ys => simp [hassoc, ih]

theorem map_zipWith_right {α : Type} (f : α → α → α) (g h : α → α)
    (hgh : ∀ u v, g (f u v) = f u (h v)) (z x : List α) :
    (List.zipWith f z x).map g = List.zipWith f z (x.map h) := by
  induction z generalizing x with
  | nil => simp
  | cons z0 zs ih =>
    cases x with
    | nil => simp
    | cons x0 xs => simp [hgh, ih]

/-- The increment path of `DD` when the reuse target is not `b`: the target
receives `(target OP a) OP b`, by two calls of the mutating kernel. -/
theorem DD_incr_general {α : Type} (E : Env α) (bo : DenseBinOp) (s : State α) (a b dest : Ref)
    (safe : Bool) (ta tb td : Dtype) (S : Shape) (t : Dtype) (x y z : List α)
    (ha : s.heap[a]? = some ⟨ta, S, .number t x⟩)
    (hb : s.heap[b]? = some ⟨tb, S, .number t y⟩)
    (hd : s.heap[dest]? = some ⟨td, S, .number t z⟩)
    (hdb : dest ≠ b) (hzx : z.length = x.length) (hxy : x.length = y.length) :
    DD E bo s a b ⟨safe, true, some dest⟩ =
      (⟨writeBuf (writeBuf s.heap dest (List.zipWith (E.elem bo.OpName) z x)) dest
          (List.zipWith (E.elem bo.OpName) (List.zipWith (E.elem bo.OpName) z x) y),
        s.calls ++ [.vv (title bo.OpName) dest a] ++ [.vv (title bo.OpName) dest b]⟩,
        .ret (some dest) none) := by
  have hprep := prepDDOp_reuse ha hb hd safe true
  have hk1 := runVV_ok E (title bo.OpName) s hd ha hzx
  rw [title_op] at hk1
  have hd1 := writeBuf_self hd (List.zipWith (E.elem bo.OpName) z x)
  have hb1 : (writeBuf s.heap dest (List.zipWith (E.elem bo.OpName) z x))[b]? =
      some ⟨tb, S, .number t y⟩ := by
    rw [writeBuf_other _ (Ne.symm hdb)]
    exact hb
  have hk2 := runVV_ok E (title bo.OpName)
    ⟨writeBuf s.heap dest (List.zipWith (E.elem bo.OpName) z x),
      s.calls ++ [.vv (title bo.OpName) dest a]⟩ hd1 hb1
    (by simp [hzx, hxy])
  rw [title_op] at hk2
  have hne : ¬ (some dest = some b) := by
    intro h
    exact hdb (Option.some.inj h)
  simp only [DD, hprep, switchCase, ddIncr, callVV, if_true, if_neg hne]
  rw [hk1]
  simp only []
  rw [hk2]

/-- The increment path of `DD` when the reuse target is `b` itself: `b` is
accumulated first, so the target receives `(b OP b) OP a`. -/
theorem DD_incr_alias_b {α : Type} (E : Env α) (bo : DenseBinOp) (s : State α) (a b : Ref)
    (safe : Bool) (ta tb : Dtype) (S : Shape) (t : Dtype) (x y : List α)
    (ha : s.heap[a]? = some ⟨ta, S, .number t x⟩)
    (hb : s.heap[b]? = some ⟨tb, S, .number t y⟩)
    (hab : a ≠ b) (hxy : x.length = y.length) :
    DD E bo s a b ⟨safe, true, some b⟩ =
      (⟨writeBuf (writeBuf s.heap b (List.zipWith (E.elem bo.OpName) y y)) b
          (List.zipWith (E.elem bo.OpName) (List.zipWith (E.elem bo.OpName) y y) x),
        s.calls ++ [.vv (title bo.OpName) b b] ++ [.vv (title bo.OpName) b a]⟩,
        .ret (some b) none) := by
  have hprep := prepDDOp_reuse ha hb hb safe true
  have hk1 := runVV_ok E (title bo.OpName) s hb hb rfl
  rw [title_op] at hk1
  have hb1 := writeBuf_self hb (List.zipWith (E.elem bo.OpName) y y)
  have ha1 : (writeBuf s.heap b (List.zipWith (E.elem bo.OpName) y y))[a]? =
      some ⟨ta, S, .number t x⟩ := by
    rw [writeBuf_other _ hab]
    exact ha
  have hk2 := runVV_ok E (title bo.OpName)
    ⟨writeBuf s.heap b (List.zipWith (E.elem bo.OpName) y y),
      s.calls ++ [.vv (title bo.OpName) b b]⟩ hb1 ha1
    (by simp [hxy])
  rw [title_op] at hk2
  simp only [DD, hprep, switchCase, ddIncr, callVV, if_true]
  rw [hk1]
  simp only []
  rw [hk2]

theorem writeBuf_twice_self {α : Type} {h : List (Dense α)} {r : Ref} {td : Dtype} {S : Shape}
    {t : Dtype} {x : List α} (hr : h[r]? = some ⟨td, S, .number t x⟩) (b1 b2 : List α) :
    (writeBuf (writeBuf h r b1) r b2)[r]? = some ⟨td, S, .number t b2⟩ :=
  writeBuf_self (writeBuf_self hr b1) b2

theorem writeBuf_twice_other {α : Type} (h : List (Dense α)) {r q : Ref} (hq : q ≠ r)
    (b1 b2 : List α) : (writeBuf (writeBuf h r b1) r b2)[q]? = h[q]? := by
  rw [writeBuf_other _ hq, writeBuf_other _ hq]

/-- The increment path of `DS`: the target receives `(target OP a)` and then
the scalar kernel of the row is applied to it. -/
theorem DS_incr_general {α : Type} (E : Env α) (bo : DenseBinOp) (s : State α) (a dest : Ref)
    (c : Scalar α) (safe : Bool) (ta td : Dtype) (S : Shape) (t : Dtype) (x z : List α)
    (ha : s.heap[a]? = some ⟨ta, S, .number t x⟩)
    (hd : s.heap[dest]? = some ⟨td, S, .number t z⟩)
    (hzx : z.length = x.length) (hc : c.t = t) :
    DS E bo s a c ⟨safe, true, some dest⟩ =
      (⟨writeBuf (writeBuf s.heap dest (List.zipWith (E.elem bo.OpName) z x)) dest
          ((List.zipWith (E.elem bo.OpName) z x).map (fun v => bo.VecScalar.apply E v c.v)),
        s.calls ++ [.vv (title bo.OpName) dest a] ++ [.vs bo.VecScalar dest c]⟩,
        .ret (some dest) none) := by
  have hprep := prepSD_reuse ha hd safe true
  have hk1 := runVV_ok E (title bo.OpName) s hd ha hzx
  rw [title_op] at hk1
  have hd1 := writeBuf_self hd (List.zipWith (E.elem bo.OpName) z x)
  have hk2 := runVS_ok E bo.VecScalar
    ⟨writeBuf s.heap dest (List.zipWith (E.elem bo.OpName) z x),
      s.calls ++ [.vv (title bo.OpName) dest a]⟩ c hd1 hc
  simp only [DS, hprep, switchCase, dsIncr, callVV, callVS, if_true]
  rw [hk1]
  simp only []
  rw [hk2]

/-- The increment path of `SD`, for the tensor `b` and the scalar `c`. -/
theorem SD_incr_general {α : Type} (E : Env α) (bo : DenseBinOp) (s : State α) (b dest : Ref)
    (c : Scalar α) (safe : Bool) (tb td : Dtype) (S : Shape) (t : Dtype) (y z : List α)
    (hb : s.heap[b]? = some ⟨tb, S, .number t y⟩)
    (hd : s.heap[dest]? = some ⟨td, S, .number t z⟩)
    (hzy : z.length = y.length) (hc : c.t = t) :
    SD E bo s c b ⟨safe, true, some dest⟩ =
      (⟨writeBuf (writeBuf s.heap dest (List.zipWith (E.elem bo.OpName) z y)) dest
          ((List.zipWith (E.elem bo.OpName) z y).map (fun v => bo.ScalarVec.apply E v c.v)),
        s.calls ++ [.vv (title bo.OpName) dest b] ++ [.vs bo.ScalarVec dest c]⟩,
        .ret (some dest) none) := by
  have hprep := prepSD_reuse hb hd safe true
  have hk1 := runVV_ok E (title bo.OpName) s hd hb hzy
  rw [title_op] at hk1
  have hd1 := writeBuf_self hd (List.zipWith (E.elem bo.OpName) z y)
  have hk2 := runVS_ok E bo.ScalarVec
    ⟨writeBuf s.heap dest (List.zipWith (E.elem bo.OpName) z y),
      s.calls ++ [.vv (title bo.OpName) dest b]⟩ c hd1 hc
  simp only [SD, hprep, switchCase, sdIncr, callVV, callVS, if_true]
  rw [hk1]
  simp only []
  rw [hk2]

theorem row_add {bo : DenseBinOp} (hbo : bo ∈ denseBinOps) (hop : bo.OpName = .add) :
    bo = ⟨.add, .Add, .Trans, .Trans⟩ := by
  simp only [denseBinOps, List.mem_cons, List.mem_singleton, List.not_mem_nil, or_false] at hbo
  rcases hbo with h | h | h | h | h <;> subst h <;> first | rfl | exact absurd hop (by decide)

theorem rowOf_mem (op : Op) : rowOf op ∈ denseBinOps := by
  cases op <;> decide

theorem zipWith_self_right_comm {α : Type} (f : α → α → α)
    (hrc : ∀ u v, f (f u u) v = f (f u v) u) (y x : List α) :
    List.zipWith f (List.zipWith f y y) x = List.zipWith f (List.zipWith f y x) y := by
  induction y generalizing x with
  | nil => simp
  | cons y0 ys ih =>
    cases x with
    | nil => simp
    | cons x0 xs =>
      simp only [List.zipWith_cons_cons]
      rw [hrc, ih]

/-- On natural numbers each of the five operations satisfies
`(u OP v) OP w = (u OP w) OP v`. -/
theorem natEnv_right_comm (op : Op) (u v w : Nat) :
    natEnv.elem op (natEnv.elem op u v) w = natEnv.elem op (natEnv.elem op u w) v := by
  cases op
  · show u + v + w = u + w + v
    omega
  · show u - v - w = u - w - v
    omega
  · show u * v * w = u * w * v
    exact Nat.mul_right_comm u v w
  · show u / v / w = u / w / v
    rw [Nat.div_div_eq_div_mul, Nat.div_div_eq_div_mul, Nat.mul_comm]
  · show (u ^ v) ^ w = (u ^ w) ^ v
    rw [← Nat.pow_mul, ← Nat.pow_mul, Nat.mul_comm]

/-- On integers, with truncating division, each of the five operations
satisfies `(u OP v) OP w = (u OP w) OP v`. -/
theorem intEnv_right_comm (op : Op) (u v w : Int) :
    intEnv.elem op (intEnv.elem op u v) w = intEnv.elem op (intEnv.elem op u w) v := by
  cases op
  · show u + v + w = u + w + v
    omega
  · show u - v - w = u - w - v
    omega
  · show u * v * w = u * w * v
    exact Int.mul_right_comm u v w
  · show (u.tdiv v).tdiv w = (u.tdiv w).tdiv v
    obtain ⟨a, rfl | rfl⟩ := Int.eq_nat_or_neg u <;>
    obtain ⟨b, rfl | rfl⟩ := Int.eq_nat_or_neg v <;>
    obtain ⟨c, rfl | rfl⟩ := Int.eq_nat_or_neg w <;>
    simp only [Int.neg_tdiv, Int.tdiv_neg, ← Int.ofNat_tdiv, neg_neg, Nat.div_div_eq_div_mul,
      Nat.mul_comm b c]
  · show (u ^ v.toNat) ^ w.toNat = (u ^ w.toNat) ^ v.toNat
    rw [← pow_mul, ← pow_mul, Nat.mul_comm]

/-- An associative and commutative operation, such as addition or
multiplication, satisfies `(u OP v) OP w = (u OP w) OP v`. -/
theorem right_comm_of_assoc_comm {α : Type} (f : α → α → α)
    (hassoc : ∀ u v w, f (f u v) w = f u (f v w)) (hcomm : ∀ u v, f u v = f v u)
    (u v w : α) : f (f u v) w = f (f u w) v := by
  rw [hassoc, hcomm v w, ← hassoc]

/-- Folding `x` and then `y` into an accumulator gives the same buffer as
folding `y` and then `x`, for an operation with `(u OP v) OP w = (u OP w) OP v`. -/
theorem zipWith_right_comm {α : Type} (f : α → α → α)
    (hrc : ∀ u v w, f (f u v) w = f (f u w) v) (z x y : List α) :
    List.zipWith f (List.zipWith f z x) y = List.zipWith f (List.zipWith f z y) x := by
  induction z generalizing x y with
  | nil => simp
  | cons z0 zs ih =>
    cases x with
    | nil => cases y <;> simp
    | cons x0 xs =>
      cases y with
      | nil => simp
      | cons y0 ys =>
        simp only [List.zipWith_cons_cons]
        rw [hrc, ih]

/-! ## The claims -/

/-- C1: after a successful preparation the path a generated function takes is
the first match in the order increment, reuse, safe, in-place, for every row of
the table, for each of the call shapes DD, DS and SD and for all values of the
flags; a present reuse target wins over `safe == false` and `incr` wins over
everything. -/
theorem C1_path_priority {α : Type} (E : Env α) (bo : DenseBinOp) (s : State α) (a b : Ref)
    (c : Scalar α) (o : FuncOpts) :
    (∀ p, prepDDOp s.heap a b o = .ok p →
      switchCase p.incr p.toReuse p.safe = specPath o.incr o.reuseT.isSome o.safe ∧
      DD E bo s a b o =
        (if o.incr then ddIncr E bo s b p
         else if o.reuseT.isSome then ddReuse E bo s p
         else if o.safe then ddSafe E bo s a p
         else ddInPlace E bo s a p)) ∧
    (∀ p, prepSD s.heap a o = .ok p →
      switchCase p.incr p.toReuse p.safe = specPath o.incr o.reuseT.isSome o.safe ∧
      DS E bo s a c o =
        (if o.incr then dsIncr E bo s c p
         else if o.reuseT.isSome then dsReuse E bo s c p
         else if o.safe then dsSafe E bo s a c p
         else dsInPlace E bo s a c p)) ∧
    (∀ p, prepSD s.heap b o = .ok p →
      switchCase p.incr p.toReuse p.safe = specPath o.incr o.reuseT.isSome o.safe ∧
      SD E bo s c b o =
        (if o.incr then sdIncr E bo s c p
         else if o.reuseT.isSome then sdReuse E bo s c p
         else if o.safe then sdSafe E bo s c b p
         else sdInPlace E bo s c b p)) := by
  refine ⟨?_, ?_, ?_⟩
  · intro p hp
    have hflags := prepDDOp_ok hp
    refine ⟨by rw [switchCase_eq_specPath, hflags], ?_⟩
    rw [DD, hp]
    simp only [hflags, switchCase]
    cases o.incr <;> cases o.reuseT.isSome <;> cases o.safe <;> rfl
  · intro p hp
    have hflags := prepSD_ok hp
    refine ⟨by rw [switchCase_eq_specPath, hflags], ?_⟩
    rw [DS, hp]
    simp only [hflags, switchCase]
    cases o.incr <;> cases o.reuseT.isSome <;> cases o.safe <;> rfl
  · intro p hp
    have hflags := prepSD_ok hp
    refine ⟨by rw [switchCase_eq_specPath, hflags], ?_⟩
    rw [SD, hp]
    simp only [hflags, switchCase]
    cases o.incr <;> cases o.reuseT.isSome <;> cases o.safe <;> rfl

/-- Witness for C1: `subDD` with `safe == false` and a reuse target takes the
reuse path. -/
theorem C1_path_priority_witness :
    DD natEnv (rowOf .sub) ⟨[vec [7, 8], vec [1, 2], vec [0, 0]], []⟩ 0 1 ⟨false, false, some 2⟩ =
      ddReuse natEnv (rowOf .sub) ⟨[vec [7, 8], vec [1, 2], vec [0, 0]], []⟩
        ⟨0, 1, some 2, some 2, false, true, false⟩ :=
  ((C1_path_priority natEnv (rowOf .sub) ⟨[vec [7, 8], vec [1, 2], vec [0, 0]], []⟩ 0 1 ⟨"int", 0⟩
    ⟨false, false, some 2⟩).1 ⟨0, 1, some 2, some 2, false, true, false⟩ (by decide)).2

/-- C2: safe path.  For every operation and numeric tensors `a`, `b` of equal
shape `S` whose kernel succeeds (same element type, buffers of the size of the
shape), `OP-DD(a, b)` with `safe`, without `incr` and without a reuse target
returns a tensor that did not exist before (so it is neither `a` nor `b`), of
shape `S`, holding `a OP b` element-wise; every tensor that existed before,
`a` and `b` among them, is unchanged, and exactly one kernel is invoked. -/
theorem C2_safe_path {α : Type} (E : Env α) (bo : DenseBinOp) (s : State α) (a b : Ref)
    (t tb : Dtype) (S : Shape) (x y : List α)
    (ha : s.heap[a]? = some ⟨t, S, .number t x⟩)
    (hb : s.heap[b]? = some ⟨tb, S, .number t y⟩)
    (hx : x.length = S.prod) (hy : y.length = S.prod) :
    ∃ s1 r, DD E bo s a b ⟨true, false, none⟩ = (s1, .ret (some r) none) ∧
      r ≠ a ∧ r ≠ b ∧ s.heap[r]? = none ∧
      s1.heap[r]? = some ⟨t, S, .number t (List.zipWith (E.elem bo.OpName) x y)⟩ ∧
      s1.heap[a]? = s.heap[a]? ∧ s1.heap[b]? = s.heap[b]? ∧
      (∀ q, q ≠ r → s1.heap[q]? = s.heap[q]?) ∧
      s1.calls = s.calls ++ [.safeVV (title bo.OpName) a b (some r)] := by
  have hprep := prepDDOp_numeric ha hb true false
  have hra : s.heap.length ≠ a := ne_length_of_get ha
  have hrb : s.heap.length ≠ b := ne_length_of_get hb
  have ha1 := get_append_old ha ⟨t, S, .number t ((List.range S.prod).map E.garbage)⟩
  have hb1 := get_append_old hb ⟨t, S, .number t ((List.range S.prod).map E.garbage)⟩
  have hd1 := get_append_new s.heap ⟨t, S, .number t ((List.range S.prod).map E.garbage)⟩
  have hk := runSafeVV_ok E (title bo.OpName)
    ⟨s.heap ++ [⟨t, S, .number t ((List.range S.prod).map E.garbage)⟩], s.calls⟩
    ha1 hb1 hd1 (hx.trans hy.symm) (by simp [hx])
  have hfresh : ∀ q, q ≠ s.heap.length →
      (writeBuf (s.heap ++ [⟨t, S, .number t ((List.range S.prod).map E.garbage)⟩])
        s.heap.length (List.zipWith (E.elem bo.OpName) x y))[q]? = s.heap[q]? := by
    intro q hq
    rw [writeBuf_other _ hq]
    rcases Nat.lt_or_gt_of_ne hq with hlt | hgt
    · exact List.getElem?_append_left hlt
    · rw [List.getElem?_eq_none (by simp; omega), List.getElem?_eq_none (by omega)]
  rw [title_op] at hk
  refine ⟨⟨writeBuf (s.heap ++ [⟨t, S, .number t ((List.range S.prod).map E.garbage)⟩])
      s.heap.length (List.zipWith (E.elem bo.OpName) x y),
      s.calls ++ [.safeVV (title bo.OpName) a b (some s.heap.length)]⟩,
    s.heap.length, ?_, hra, hrb, by simp, ?_, ?_, ?_, ?_, ?_⟩
  · simp only [DD, hprep, switchCase, ddSafe, ha, recycledDense]
    rw [hk]
    simp
  · exact writeBuf_self hd1 _
  · exact hfresh a (Ne.symm hra)
  · exact hfresh b (Ne.symm hrb)
  · exact hfresh
  · rfl

/-- Witness for C2: `a = [1,2,3,4]`, `b = [10,10,10,10]`, `addDD` on the safe
path gives a new tensor `[11,12,13,14]` with `a` and `b` unchanged. -/
theorem C2_safe_path_witness :
    ∃ s1 r, DD natEnv (rowOf .add) ⟨[vec [1, 2, 3, 4], vec [10, 10, 10, 10]], []⟩ 0 1
        ⟨true, false, none⟩ = (s1, .ret (some r) none) ∧
      r ≠ 0 ∧ r ≠ 1 ∧ [vec [1, 2, 3, 4], vec [10, 10, 10, 10]][r]? = none ∧
      s1.heap[r]? = some (vec [11, 12, 13, 14]) ∧
      s1.heap[0]? = some (vec [1, 2, 3, 4]) ∧ s1.heap[1]? = some (vec [10, 10, 10, 10]) ∧
      (∀ q, q ≠ r → s1.heap[q]? = [vec [1, 2, 3, 4], vec [10, 10, 10, 10]][q]?) ∧
      s1.calls = [] ++ [.safeVV (title (rowOf .add).OpName) 0 1 (some r)] :=
  C2_safe_path natEnv (rowOf .add) ⟨[vec [1, 2, 3, 4], vec [10, 10, 10, 10]], []⟩ 0 1
    "int" "int" [4] [1, 2, 3, 4] [10, 10, 10, 10] rfl rfl rfl rfl

/-- C3: in-place path.  For every operation and numeric tensors `a`, `b` of
equal shape whose kernel succeeds, `OP-DD(a, b)` with `safe == false`, without
`incr` and without a reuse target returns `a` itself, and the buffer of `a`
afterwards is `a_original OP b` element-wise; no other tensor changes. -/
theorem C3_in_place_path {α : Type} (E : Env α) (bo : DenseBinOp) (s : State α) (a b : Ref)
    (ta tb : Dtype) (S : Shape) (t : Dtype) (x y : List α)
    (ha : s.heap[a]? = some ⟨ta, S, .number t x⟩)
    (hb : s.heap[b]? = some ⟨tb, S, .number t y⟩)
    (hxy : x.length = y.length) :
    ∃ s1, DD E bo s a b ⟨false, false, none⟩ = (s1, .ret (some a) none) ∧
      s1.heap[a]? = some ⟨ta, S, .number t (List.zipWith (E.elem bo.OpName) x y)⟩ ∧
      (∀ q, q ≠ a → s1.heap[q]? = s.heap[q]?) ∧
      s1.calls = s.calls ++ [.vv (title bo.OpName) a b] := by
  have hprep := prepDDOp_numeric ha hb false false
  have hk := runVV_ok E (title bo.OpName) s ha hb hxy
  rw [title_op] at hk
  refine ⟨⟨writeBuf s.heap a (List.zipWith (E.elem bo.OpName) x y),
    s.calls ++ [.vv (title bo.OpName) a b]⟩, ?_, writeBuf_self ha _, ?_, rfl⟩
  · simp only [DD, hprep, switchCase, ddInPlace, callVV]
    rw [hk]
    simp
  · intro q hq
    exact writeBuf_other _ hq _

/-- Witness for C3: `a = [1,2,3,4]`, `b = [10,10,10,10]`, `addDD` in place
returns `a`, whose buffer is now `[11,12,13,14]`. -/
theorem C3_in_place_path_witness :
    ∃ s1, DD natEnv (rowOf .add) ⟨[vec [1, 2, 3, 4], vec [10, 10, 10, 10]], []⟩ 0 1
        ⟨false, false, none⟩ = (s1, .ret (some 0) none) ∧
      s1.heap[0]? = some (vec [11, 12, 13, 14]) ∧
      (∀ q, q ≠ 0 → s1.heap[q]? = [vec [1, 2, 3, 4], vec [10, 10, 10, 10]][q]?) ∧
      s1.calls = [] ++ [.vv (title (rowOf .add).OpName) 0 1] :=
  C3_in_place_path natEnv (rowOf .add) ⟨[vec [1, 2, 3, 4], vec [10, 10, 10, 10]], []⟩ 0 1
    "int" "int" [4] "int" [1, 2, 3, 4] [10, 10, 10, 10] rfl rfl rfl

/-- C4: reuse path.  For every operation, numeric tensors `a`, `b` of equal
shape and a reuse target `dest` of that shape, distinct from `a` and `b`, whose
kernel succeeds, `OP-DD(a, b)` with the reuse target and without `incr` returns
`dest` itself whatever `safe` is; the buffer of `dest` is `a OP b` element-wise
whatever it held before, and no other tensor changes, `a` and `b` included. -/
theorem C4_reuse_path {α : Type} (E : Env α) (bo : DenseBinOp) (s : State α) (a b dest : Ref)
    (safe : Bool) (ta tb td : Dtype) (S : Shape) (t : Dtype) (x y z : List α)
    (ha : s.heap[a]? = some ⟨ta, S, .number t x⟩)
    (hb : s.heap[b]? = some ⟨tb, S, .number t y⟩)
    (hd : s.heap[dest]? = some ⟨td, S, .number t z⟩)
    (hda : dest ≠ a) (hdb : dest ≠ b)
    (hxy : x.length = y.length) (hxz : x.length = z.length) :
    ∃ s1, DD E bo s a b ⟨safe, false, some dest⟩ = (s1, .ret (some dest) none) ∧
      s1.heap[dest]? = some ⟨td, S, .number t (List.zipWith (E.elem bo.OpName) x y)⟩ ∧
      s1.heap[a]? = s.heap[a]? ∧ s1.heap[b]? = s.heap[b]? ∧
      (∀ q, q ≠ dest → s1.heap[q]? = s.heap[q]?) ∧
      s1.calls = s.calls ++ [.safeVV (title bo.OpName) a b (some dest)] := by
  have hprep := prepDDOp_reuse ha hb hd safe false
  have hk := runSafeVV_ok E (title bo.OpName) s ha hb hd hxy hxz
  rw [title_op] at hk
  refine ⟨⟨writeBuf s.heap dest (List.zipWith (E.elem bo.OpName) x y),
    s.calls ++ [.safeVV (title bo.OpName) a b (some dest)]⟩, ?_, writeBuf_self hd _,
    writeBuf_other _ (Ne.symm hda) _, writeBuf_other _ (Ne.symm hdb) _, ?_, rfl⟩
  · simp only [DD, hprep, switchCase, ddReuse]
    rw [hk]
    simp
  · intro q hq
    exact writeBuf_other _ hq _

/-- Witness for C4: `divDD` of `[12, 9]` by `[4, 2]` into a reuse target that
held `[7, 7]`, with `safe == false`. -/
theorem C4_reuse_path_witness :
    ∃ s1, DD natEnv (rowOf .div) ⟨[vec [12, 9], vec [4, 2], vec [7, 7]], []⟩ 0 1
        ⟨false, false, some 2⟩ = (s1, .ret (some 2) none) ∧
      s1.heap[2]? = some (vec [3, 4]) ∧
      s1.heap[0]? = some (vec [12, 9]) ∧ s1.heap[1]? = some (vec [4, 2]) ∧
      (∀ q, q ≠ 2 → s1.heap[q]? = [vec [12, 9], vec [4, 2], vec [7, 7]][q]?) ∧
      s1.calls = [] ++ [.safeVV (title (rowOf .div).OpName) 0 1 (some 2)] :=
  C4_reuse_path natEnv (rowOf .div) ⟨[vec [12, 9], vec [4, 2], vec [7, 7]], []⟩ 0 1 2 false
    "int" "int" "int" [2] "int" [12, 9] [4, 2] [7, 7] rfl rfl rfl (by decide) (by decide) rfl rfl

/-- C5: increment path for `add`.  With element addition associative and
commutative, for the `add` row of the table, `incr == true` and a reuse target
`dest` distinct from the operands: `addDD`, `addDS` and `addSD` each return
`dest`, whose buffer afterwards is `dest_original + (a + b)` element-wise (the
scalar is the right operand in `addDS` and the left operand in `addSD`), and no
other tensor changes, so the operands keep their buffers. -/
theorem C5_incr_add {α : Type} (E : Env α) (bo : DenseBinOp) (s : State α) (a b dest : Ref)
    (c : Scalar α) (safe : Bool) (ta tb td : Dtype) (S : Shape) (t : Dtype) (x y z : List α)
    (hbo : bo ∈ denseBinOps) (hop : bo.OpName = .add)
    (hassoc : ∀ u v w, E.elem .add (E.elem .add u v) w = E.elem .add u (E.elem .add v w))
    (hcomm : ∀ u v, E.elem .add u v = E.elem .add v u)
    (ha : s.heap[a]? = some ⟨ta, S, .number t x⟩)
    (hb : s.heap[b]? = some ⟨tb, S, .number t y⟩)
    (hd : s.heap[dest]? = some ⟨td, S, .number t z⟩)
    (hda : dest ≠ a) (hdb : dest ≠ b)
    (hzx : z.length = x.length) (hxy : x.length = y.length) (hc : c.t = t) :
    (∃ s1, DD E bo s a b ⟨safe, true, some dest⟩ = (s1, .ret (some dest) none) ∧
      s1.heap[dest]? = some ⟨td, S, .number t
        (List.zipWith (E.elem .add) z (List.zipWith (E.elem .add) x y))⟩ ∧
      s1.heap[a]? = s.heap[a]? ∧ s1.heap[b]? = s.heap[b]? ∧
      (∀ q, q ≠ dest → s1.heap[q]? = s.heap[q]?)) ∧
    (∃ s1, DS E bo s a c ⟨safe, true, some dest⟩ = (s1, .ret (some dest) none) ∧
      s1.heap[dest]? = some ⟨td, S, .number t
        (List.zipWith (E.elem .add) z (x.map (fun v => E.elem .add v c.v)))⟩ ∧
      s1.heap[a]? = s.heap[a]? ∧
      (∀ q, q ≠ dest → s1.heap[q]? = s.heap[q]?)) ∧
    (∃ s1, SD E bo s c a ⟨safe, true, some dest⟩ = (s1, .ret (some dest) none) ∧
      s1.heap[dest]? = some ⟨td, S, .number t
        (List.zipWith (E.elem .add) z (x.map (fun v => E.elem .add c.v v)))⟩ ∧
      s1.heap[a]? = s.heap[a]? ∧
      (∀ q, q ≠ dest → s1.heap[q]? = s.heap[q]?)) := by
  have hrow := row_add hbo hop
  subst hrow
  refine ⟨⟨_, DD_incr_general E _ s a b dest safe ta tb td S t x y z ha hb hd hdb hzx hxy,
      ?_, writeBuf_twice_other _ (Ne.symm hda) _ _, writeBuf_twice_other _ (Ne.symm hdb) _ _,
      fun q hq => writeBuf_twice_other _ hq _ _⟩,
    ⟨_, DS_incr_general E _ s a dest c safe ta td S t x z ha hd hzx hc,
      ?_, writeBuf_twice_other _ (Ne.symm hda) _ _, fun q hq => writeBuf_twice_other _ hq _ _⟩,
    ⟨_, SD_incr_general E _ s a dest c safe ta td S t x z ha hd hzx hc,
      ?_, writeBuf_twice_other _ (Ne.symm hda) _ _, fun q hq => writeBuf_twice_other _ hq _ _⟩⟩
  · rw [writeBuf_twice_self hd, zipWith_zipWith_assoc _ hassoc]
  · rw [writeBuf_twice_self hd]
    simp only [VSKernel.apply]
    rw [map_zipWith_right (E.elem .add) _ (fun v => E.elem .add v c.v) (fun u v => hassoc u v c.v)]
  · rw [writeBuf_twice_self hd]
    simp only [VSKernel.apply]
    rw [map_zipWith_right (E.elem .add) _ (fun v => E.elem .add c.v v)
      (fun u v => by rw [hassoc, hcomm v c.v])]

/-- Witness for C5: `a = [1,2]`, `b = [10,20]`, scalar `5`, target `[100,200]`. -/
theorem C5_incr_add_witness :
    (∃ s1, DD natEnv (rowOf .add) ⟨[vec [1, 2], vec [10, 20], vec [100, 200]], []⟩ 0 1
        ⟨true, true, some 2⟩ = (s1, .ret (some 2) none) ∧
      s1.heap[2]? = some (vec [111, 222]) ∧
      s1.heap[0]? = some (vec [1, 2]) ∧ s1.heap[1]? = some (vec [10, 20]) ∧
      (∀ q, q ≠ 2 → s1.heap[q]? = [vec [1, 2], vec [10, 20], vec [100, 200]][q]?)) ∧
    (∃ s1, DS natEnv (rowOf .add) ⟨[vec [1, 2], vec [10, 20], vec [100, 200]], []⟩ 0 ⟨"int", 5⟩
        ⟨true, true, some 2⟩ = (s1, .ret (some 2) none) ∧
      s1.heap[2]? = some (vec [106, 207]) ∧
      s1.heap[0]? = some (vec [1, 2]) ∧
      (∀ q, q ≠ 2 → s1.heap[q]? = [vec [1, 2], vec [10, 20], vec [100, 200]][q]?)) ∧
    (∃ s1, SD natEnv (rowOf .add) ⟨[vec [1, 2], vec [10, 20], vec [100, 200]], []⟩ ⟨"int", 5⟩ 0
        ⟨true, true, some 2⟩ = (s1, .ret (some 2) none) ∧
      s1.heap[2]? = some (vec [106, 207]) ∧
      s1.heap[0]? = some (vec [1, 2]) ∧
      (∀ q, q ≠ 2 → s1.heap[q]? = [vec [1, 2], vec [10, 20], vec [100, 200]][q]?)) :=
  C5_incr_add natEnv (rowOf .add) ⟨[vec [1, 2], vec [10, 20], vec [100, 200]], []⟩ 0 1 2
    ⟨"int", 5⟩ true "int" "int" "int" [2] "int" [1, 2] [10, 20] [100, 200]
    (rowOf_mem .add) rfl (fun u v w => Nat.add_assoc u v w) (fun u v => Nat.add_comm u v)
    rfl rfl rfl (by decide) (by decide) rfl rfl rfl

/-- C6 fails on the code: with `incr` and a separate reuse target
holding `[5]`, `mulDD([2], [3])` and `mulDS([2], 3)` leave `[30]` in the target
and `subSD(3, [2])` leaves `[0]`, whereas `target + (a OP b)` is `[11]`,
`[11]` and `[6]`. -/
theorem C6_incr_not_accumulating :
    DD natEnv (rowOf .mul) ⟨[vec [2], vec [3], vec [5]], []⟩ 0 1 ⟨true, true, some 2⟩ =
      (⟨[vec [2], vec [3], vec [30]], [.vv .Mul 2 0, .vv .Mul 2 1]⟩, .ret (some 2) none) ∧
    DS natEnv (rowOf .mul) ⟨[vec [2], vec [3], vec [5]], []⟩ 0 ⟨"int", 3⟩ ⟨true, true, some 2⟩ =
      (⟨[vec [2], vec [3], vec [30]], [.vv .Mul 2 0, .vs .Scale 2 ⟨"int", 3⟩]⟩,
        .ret (some 2) none) ∧
    SD natEnv (rowOf .sub) ⟨[vec [2], vec [3], vec [5]], []⟩ ⟨"int", 3⟩ 0 ⟨true, true, some 2⟩ =
      (⟨[vec [2], vec [3], vec [0]], [.vv .Sub 2 0, .vs .TransInvR 2 ⟨"int", 3⟩]⟩,
        .ret (some 2) none) ∧
    List.zipWith (natEnv.elem .add) [5] (List.zipWith (natEnv.elem .mul) [2] [3]) = [11] ∧
    List.zipWith (natEnv.elem .add) [5] ([2].map (fun v => natEnv.elem .mul v 3)) = [11] ∧
    List.zipWith (natEnv.elem .add) [5] ([2].map (fun v => natEnv.elem .sub 3 v)) = [6] := by
  decide

/-- C7: increment with the reuse target aliasing `b`.  For every operation whose
element arithmetic satisfies the law `(u OP v) OP w = (u OP w) OP v` (as
addition, subtraction, multiplication, division and power do in exact
arithmetic), and numeric tensors `a ≠ b` of equal shape: the increment path of
`DD` with reuse target `b` calls the kernel with `b` first and then with `a`,
returns `b` and leaves `(b OP b) OP a` in it, with `a` unchanged; the increment
path run on copies of `a` and `b` and a separate target initialised to the
contents of `b` calls the kernel with `a` first and then with `b`, and leaves
that same buffer in its target. -/
theorem C7_incr_alias_b {α : Type} (E : Env α) (bo : DenseBinOp) (s s2 : State α)
    (a b a2 b2 d2 : Ref) (safe : Bool) (ta tb ta2 tb2 td2 : Dtype) (S : Shape) (t : Dtype)
    (x y : List α)
    (hrc : ∀ u v w, E.elem bo.OpName (E.elem bo.OpName u v) w =
      E.elem bo.OpName (E.elem bo.OpName u w) v)
    (ha : s.heap[a]? = some ⟨ta, S, .number t x⟩)
    (hb : s.heap[b]? = some ⟨tb, S, .number t y⟩)
    (hab : a ≠ b)
    (ha2 : s2.heap[a2]? = some ⟨ta2, S, .number t x⟩)
    (hb2 : s2.heap[b2]? = some ⟨tb2, S, .number t y⟩)
    (hd2 : s2.heap[d2]? = some ⟨td2, S, .number t y⟩)
    (hd2b : d2 ≠ b2) (hxy : x.length = y.length) :
    ∃ s1 s3, DD E bo s a b ⟨safe, true, some b⟩ = (s1, .ret (some b) none) ∧
      DD E bo s2 a2 b2 ⟨safe, true, some d2⟩ = (s3, .ret (some d2) none) ∧
      s1.heap[b]? = some ⟨tb, S, .number t
        (List.zipWith (E.elem bo.OpName) (List.zipWith (E.elem bo.OpName) y y) x)⟩ ∧
      s3.heap[d2]? = some ⟨td2, S, .number t
        (List.zipWith (E.elem bo.OpName) (List.zipWith (E.elem bo.OpName) y y) x)⟩ ∧
      s1.heap[a]? = s.heap[a]? ∧
      s1.calls = s.calls ++ [.vv (title bo.OpName) b b] ++ [.vv (title bo.OpName) b a] ∧
      s3.calls = s2.calls ++ [.vv (title bo.OpName) d2 a2] ++ [.vv (title bo.OpName) d2 b2] :=
  ⟨_, _,
    DD_incr_alias_b E bo s a b safe ta tb S t x y ha hb hab hxy,
    DD_incr_general E bo s2 a2 b2 d2 safe ta2 tb2 td2 S t x y y ha2 hb2 hd2 hd2b hxy.symm hxy,
    writeBuf_twice_self hb _ _,
    by rw [writeBuf_twice_self hd2, zipWith_right_comm _ hrc],
    writeBuf_twice_other _ hab _ _,
    rfl, rfl⟩

/-- Witness for C7: `subDD` on integers with `a = [1, 7]`, `b = [5, 2]`; the run
with reuse target `b` and the run with a separate target holding `[5, 2]` both
leave `[(5-5)-1, (2-2)-7] = [-1, -7]` in the target. -/
theorem C7_incr_alias_b_witness :
    ∃ s1 s3,
      DD intEnv (rowOf .sub)
        ⟨[⟨"int", [2], .number "int" [1, 7]⟩, ⟨"int", [2], .number "int" [5, 2]⟩], []⟩ 0 1
        ⟨true, true, some 1⟩ = (s1, .ret (some 1) none) ∧
      DD intEnv (rowOf .sub)
        ⟨[⟨"int", [2], .number "int" [1, 7]⟩, ⟨"int", [2], .number "int" [5, 2]⟩,
          ⟨"int", [2], .number "int" [5, 2]⟩], []⟩ 0 1
        ⟨true, true, some 2⟩ = (s3, .ret (some 2) none) ∧
      s1.heap[1]? = some ⟨"int", [2], .number "int" [-1, -7]⟩ ∧
      s3.heap[2]? = some ⟨"int", [2], .number "int" [-1, -7]⟩ ∧
      s1.heap[0]? = some ⟨"int", [2], .number "int" [1, 7]⟩ ∧
      s1.calls = [] ++ [.vv (title (rowOf .sub).OpName) 1 1] ++
        [.vv (title (rowOf .sub).OpName) 1 0] ∧
      s3.calls = [] ++ [.vv (title (rowOf .sub).OpName) 2 0] ++
        [.vv (title (rowOf .sub).OpName) 2 1] :=
  C7_incr_alias_b intEnv (rowOf .sub)
    ⟨[⟨"int", [2], .number "int" [1, 7]⟩, ⟨"int", [2], .number "int" [5, 2]⟩], []⟩
    ⟨[⟨"int", [2], .number "int" [1, 7]⟩, ⟨"int", [2], .number "int" [5, 2]⟩,
      ⟨"int", [2], .number "int" [5, 2]⟩], []⟩ 0 1 0 1 2 true "int" "int" "int" "int" "int" [2]
    "int" [1, 7] [5, 2] (fun u v w => intEnv_right_comm .sub u v w) rfl rfl (by decide)
    rfl rfl rfl (by decide) rfl

/-- C8: shape mismatch.  For every operation and numeric tensors `a`, `b`
whose shapes are not equal dimension-wise in order, `OP-DD(a, b)` returns a nil
result with the shape-mismatch error whatever the options are, and the state,
which includes the log of kernel invocations, is untouched. -/
theorem C8_shape_mismatch {α : Type} (E : Env α) (bo : DenseBinOp) (s : State α) (a b : Ref)
    (o : FuncOpts) (da db : Dense α)
    (ha : s.heap[a]? = some da) (hb : s.heap[b]? = some db)
    (hna : da.isNumber = true) (hnb : db.isNumber = true) (hne : da.shape ≠ db.shape) :
    DD E bo s a b o = (s, .ret none (some (.shapeMismatch da.shape db.shape))) := by
  simp [DD, prepDDOp, ha, hb, hna, hnb, Shape.Eq, hne]

/-- Witness for C8: shapes `[2,3]` and `[3,2]`, with `incr` and a reuse target set. -/
theorem C8_shape_mismatch_witness :
    DD natEnv (rowOf .mul)
      ⟨[⟨"int", [2, 3], .number "int" [1, 2, 3, 4, 5, 6]⟩,
        ⟨"int", [3, 2], .number "int" [1, 2, 3, 4, 5, 6]⟩], []⟩ 0 1 ⟨false, true, some 0⟩ =
      (⟨[⟨"int", [2, 3], .number "int" [1, 2, 3, 4, 5, 6]⟩,
        ⟨"int", [3, 2], .number "int" [1, 2, 3, 4, 5, 6]⟩], []⟩,
        .ret none (some (.shapeMismatch [2, 3] [3, 2]))) :=
  C8_shape_mismatch natEnv (rowOf .mul)
    ⟨[⟨"int", [2, 3], .number "int" [1, 2, 3, 4, 5, 6]⟩,
      ⟨"int", [3, 2], .number "int" [1, 2, 3, 4, 5, 6]⟩], []⟩ 0 1 ⟨false, true, some 0⟩
    ⟨"int", [2, 3], .number "int" [1, 2, 3, 4, 5, 6]⟩
    ⟨"int", [3, 2], .number "int" [1, 2, 3, 4, 5, 6]⟩ rfl rfl rfl rfl (by decide)

/-- C9: unsupported operand.  `prepDDOp` fails with `noopError` exactly when `a`
or `b` is not numeric-backed, and `prepSD` exactly when its tensor is not;
nothing about the shapes or the reuse target enters, so the check comes before
all others. -/
theorem C9_unsupported_operand {α : Type} (h : List (Dense α)) (a b : Ref) (o : FuncOpts)
    (da db : Dense α) (ha : h[a]? = some da) (hb : h[b]? = some db) :
    (prepDDOp h a b o = .err .noopError ↔ (da.isNumber = false ∨ db.isNumber = false)) ∧
    (prepSD h a o = .err .noopError ↔ da.isNumber = false) := by
  constructor
  · constructor
    · intro hp
      by_contra hcon
      simp only [not_or, Bool.not_eq_false] at hcon
      unfold prepDDOp at hp
      simp only [ha, hb, hcon.1, hcon.2] at hp
      repeat' split at hp
      all_goals simp_all
    · intro hcase
      cases hna : da.isNumber with
      | false => simp [prepDDOp, ha, hna]
      | true =>
        have hnb : db.isNumber = false := by
          rcases hcase with h1 | h1
          · rw [hna] at h1
            exact absurd h1 (by decide)
          · exact h1
        simp [prepDDOp, ha, hb, hna, hnb]
  · constructor
    · intro hp
      by_contra hcon
      simp only [Bool.not_eq_false] at hcon
      unfold prepSD at hp
      simp only [ha, hcon] at hp
      repeat' split at hp
      all_goals simp_all
    · intro hna
      simp [prepSD, ha, hna]

/-- Witness for C9: `a` is not numeric-backed, the shapes differ and the reuse
target is a nil pointer; both preparations fail with `noopError`. -/
theorem C9_unsupported_operand_witness :
    prepDDOp [⟨"string", [2, 2], Data.other⟩, vec [1, 2, 3]] 0 1 ⟨true, false, some 9⟩ =
      .err .noopError ∧
    prepSD [⟨"string", [2, 2], Data.other⟩, vec [1, 2, 3]] 0 ⟨true, false, some 9⟩ =
      .err .noopError :=
  ⟨(C9_unsupported_operand [⟨"string", [2, 2], Data.other⟩, vec [1, 2, 3]] 0 1
      ⟨true, false, some 9⟩ ⟨"string", [2, 2], Data.other⟩ (vec [1, 2, 3]) rfl rfl).1.mpr
      (Or.inl rfl),
    (C9_unsupported_operand [⟨"string", [2, 2], Data.other⟩, vec [1, 2, 3]] 0 1
      ⟨true, false, some 9⟩ ⟨"string", [2, 2], Data.other⟩ (vec [1, 2, 3]) rfl rfl).2.mpr rfl⟩

/-- C10 as stated fails: a reuse target of shape `[4]` is supplied against an
operand `a` of shape `[2,2]`, yet preparation does not fail with the
reuse-shape-mismatch error: when `a` is not numeric-backed `prepSD` and
`prepDDOp` fail with `noopError`, and when `b` has another shape than `a`
`prepDDOp` fails with the shape-mismatch error. -/
theorem C10_counterexample :
    (vec [0, 0, 0, 0]).shape ≠ [2, 2] ∧
    prepSD [⟨"string", [2, 2], Data.other⟩, vec [0, 0, 0, 0]] 0 ⟨true, false, some 1⟩ =
      .err .noopError ∧
    prepDDOp [⟨"string", [2, 2], Data.other⟩, vec [0, 0, 0, 0]] 0 0 ⟨true, false, some 1⟩ =
      .err .noopError ∧
    prepDDOp [⟨"int", [2, 2], .number "int" [1, 2, 3, 4]⟩, vec [0, 0, 0, 0]] 0 1
      ⟨true, false, some 1⟩ = .err (.shapeMismatch [2, 2] [4]) ∧
    Err.noopError ≠ .wrap (.reuseShapeMismatch [4] [2, 2]) "Cannot add with reuse" ∧
    Err.shapeMismatch [2, 2] [4] ≠ .wrap (.reuseShapeMismatch [4] [2, 2]) "Cannot add with reuse" := by
  decide

/-- C10 behind the earlier guards: reuse shape mismatch.  When the operands are numeric-backed
(and, for `DD`, `a` and `b` have equal shapes) and a reuse target is supplied
whose shape differs from the shape of `a`, both preparation functions fail
with the reuse-shape-mismatch error wrapped in "Cannot add with reuse", and
`DD`, `DS` and `SD` return a nil result with that error, leaving the state and
the log of kernel invocations untouched. -/
theorem C10_reuse_shape_mismatch {α : Type} (E : Env α) (bo : DenseBinOp) (s : State α)
    (a b r : Ref) (c : Scalar α) (o : FuncOpts) (da db dr : Dense α)
    (ha : s.heap[a]? = some da) (hb : s.heap[b]? = some db) (hr : s.heap[r]? = some dr)
    (hna : da.isNumber = true) (hnb : db.isNumber = true) (hab : da.shape = db.shape)
    (ho : o.reuseT = some r) (hne : dr.shape ≠ da.shape) :
    prepDDOp s.heap a b o =
      .err (.wrap (.reuseShapeMismatch dr.shape da.shape) "Cannot add with reuse") ∧
    prepSD s.heap a o =
      .err (.wrap (.reuseShapeMismatch dr.shape da.shape) "Cannot add with reuse") ∧
    DD E bo s a b o =
      (s, .ret none (some (.wrap (.reuseShapeMismatch dr.shape da.shape) "Cannot add with reuse"))) ∧
    DS E bo s a c o =
      (s, .ret none (some (.wrap (.reuseShapeMismatch dr.shape da.shape) "Cannot add with reuse"))) ∧
    SD E bo s c a o =
      (s, .ret none (some (.wrap (.reuseShapeMismatch dr.shape da.shape) "Cannot add with reuse"))) := by
  have hdd : prepDDOp s.heap a b o =
      .err (.wrap (.reuseShapeMismatch dr.shape da.shape) "Cannot add with reuse") := by
    have hne2 : dr.shape ≠ db.shape := by
      rw [← hab]
      exact hne
    simp [prepDDOp, ha, hb, hr, hna, hnb, Shape.Eq, hab, ho, reuseDenseCheck, hne2]
  have hsd : prepSD s.heap a o =
      .err (.wrap (.reuseShapeMismatch dr.shape da.shape) "Cannot add with reuse") := by
    simp [prepSD, ha, hr, hna, ho, reuseDenseCheck, hne]
  refine ⟨hdd, hsd, ?_, ?_, ?_⟩
  · rw [DD, hdd]
  · rw [DS, hsd]
  · rw [SD, hsd]

/-- Witness for C10: a reuse target of shape `[4]` against operands of shape
`[2,2]` is rejected by `addDD`. -/
theorem C10_reuse_shape_mismatch_witness :
    DD natEnv (rowOf .add)
      ⟨[⟨"int", [2, 2], .number "int" [1, 2, 3, 4]⟩, ⟨"int", [2, 2], .number "int" [5, 6, 7, 8]⟩,
        vec [0, 0, 0, 0]], []⟩ 0 1 ⟨true, false, some 2⟩ =
      (⟨[⟨"int", [2, 2], .number "int" [1, 2, 3, 4]⟩, ⟨"int", [2, 2], .number "int" [5, 6, 7, 8]⟩,
        vec [0, 0, 0, 0]], []⟩,
        .ret none (some (.wrap (.reuseShapeMismatch [4] [2, 2]) "Cannot add with reuse"))) :=
  (C10_reuse_shape_mismatch natEnv (rowOf .add)
    ⟨[⟨"int", [2, 2], .number "int" [1, 2, 3, 4]⟩, ⟨"int", [2, 2], .number "int" [5, 6, 7, 8]⟩,
      vec [0, 0, 0, 0]], []⟩ 0 1 2 ⟨"int", 0⟩ ⟨true, false, some 2⟩
    ⟨"int", [2, 2], .number "int" [1, 2, 3, 4]⟩ ⟨"int", [2, 2], .number "int" [5, 6, 7, 8]⟩
    (vec [0, 0, 0, 0]) rfl rfl rfl rfl rfl rfl rfl (by decide)).2.2.1

/-- C11 fails on the code: on the in-place path of `addDS` and `addSD` a scalar
whose type is not the element type of the tensor makes the kernel `Trans`
report an error, and the functions return that error as it is, beside a
non-nil result; the in-place path of `addDD`, with a kernel failing the same
way, wraps the error with a message that starts with `addDD`. -/
theorem C11_in_place_scalar_error_bare :
    DS natEnv (rowOf .add) ⟨[vec [1, 2]], []⟩ 0 ⟨"float64", 3⟩ ⟨false, false, none⟩ =
      (⟨[vec [1, 2]], [.vs .Trans 0 ⟨"float64", 3⟩]⟩,
        .ret (some 0) (some (.kernel .typeMismatch))) ∧
    SD natEnv (rowOf .add) ⟨[vec [1, 2]], []⟩ ⟨"float64", 3⟩ 0 ⟨false, false, none⟩ =
      (⟨[vec [1, 2]], [.vs .Trans 0 ⟨"float64", 3⟩]⟩,
        .ret (some 0) (some (.kernel .typeMismatch))) ∧
    DD natEnv (rowOf .add) ⟨[vec [1, 2], ⟨"float64", [2], .number "float64" [3, 4]⟩], []⟩ 0 1
        ⟨false, false, none⟩ =
      (⟨[vec [1, 2], ⟨"float64", [2], .number "float64" [3, 4]⟩], [.vv .Add 0 1]⟩,
        .ret none (some (.wrapOpFail (.kernel .typeMismatch)
          "addDD. Unable to safely add Array a to Array reused"))) := by
  decide

/-! ## Facts about failing kernels -/

theorem runVV_calls {α : Type} (E : Env α) (k : VVKernel) (s : State α) (recv other : Ref) :
    (k.run E s recv other).1.calls = s.calls ++ [.vv k recv other] := by
  unfold VVKernel.run
  split
  · split
    · rfl
    · split <;> rfl
  · rfl

/-- C12: the increment path stops at the first failure.  For every operation,
with `incr` and a reuse target `d` accepted by the preparation: if the first
call of the mutating kernel on `d` reports an error `e` (in `DD` the call is on
`b` when `d` is `b`, on `a` otherwise; in `DS` and `SD` it is on the tensor
operand), the function returns a nil result with `e` wrapped, and the log
holds that one call and no second one. -/
theorem C12_incr_stops_at_first_failure {α : Type} (E : Env α) (bo : DenseBinOp) (s : State α)
    (a b d : Ref) (c : Scalar α) (safe : Bool) (e : Err) :
    (∀ p, prepDDOp s.heap a b ⟨safe, true, some d⟩ = .ok p →
      ((title bo.OpName).run E s d (if d = b then b else a)).2 = some e →
      ∃ s1, DD E bo s a b ⟨safe, true, some d⟩ =
          (s1, .ret none (some (.wrapOpFail e (msgDD bo (bo.OpName.name ++
            (if d = b then " Array b to Array reused" else " Array a to Array reused")))))) ∧
        s1.calls = s.calls ++ [.vv (title bo.OpName) d (if d = b then b else a)]) ∧
    (∀ p, prepSD s.heap a ⟨safe, true, some d⟩ = .ok p →
      ((title bo.OpName).run E s d a).2 = some e →
      ∃ s1, DS E bo s a c ⟨safe, true, some d⟩ =
          (s1, .ret none (some (.wrapf e
            (bo.OpName.name ++ "DS. Unable to " ++ bo.OpName.name ++ " Array a to the reuse")
            []))) ∧
        s1.calls = s.calls ++ [.vv (title bo.OpName) d a]) ∧
    (∀ p, prepSD s.heap b ⟨safe, true, some d⟩ = .ok p →
      ((title bo.OpName).run E s d b).2 = some e →
      ∃ s1, SD E bo s c b ⟨safe, true, some d⟩ =
          (s1, .ret none (some (.wrapf e
            (bo.OpName.name ++ "SD. Unable to " ++ bo.OpName.name ++ " Array b to the reuse")
            []))) ∧
        s1.calls = s.calls ++ [.vv (title bo.OpName) d b]) := by
  refine ⟨?_, ?_, ?_⟩
  · intro p hp hfail
    have hflags := prepDDOp_ok hp
    subst hflags
    by_cases hdb : d = b
    · subst hdb
      simp only [if_true] at hfail ⊢
      refine ⟨((title bo.OpName).run E s d d).1, ?_, runVV_calls E _ s d d⟩
      simp only [DD, hp, switchCase, ddIncr, callVV, if_true]
      generalize hrun : (title bo.OpName).run E s d d = res at hfail
      obtain ⟨s1, r1⟩ := res
      simp only at hfail
      subst hfail
      rfl
    · simp only [if_neg hdb] at hfail ⊢
      have hne : ¬ (some d = some b) := fun h => hdb (Option.some.inj h)
      refine ⟨((title bo.OpName).run E s d a).1, ?_, runVV_calls E _ s d a⟩
      simp only [DD, hp, switchCase, ddIncr, callVV, if_true, if_neg hne]
      generalize hrun : (title bo.OpName).run E s d a = res at hfail
      obtain ⟨s1, r1⟩ := res
      simp only at hfail
      subst hfail
      rfl
  · intro p hp hfail
    have hflags := prepSD_ok hp
    subst hflags
    refine ⟨((title bo.OpName).run E s d a).1, ?_, runVV_calls E _ s d a⟩
    simp only [DS, hp, switchCase, dsIncr, callVV, if_true]
    generalize hrun : (title bo.OpName).run E s d a = res at hfail
    obtain ⟨s1, r1⟩ := res
    simp only at hfail
    subst hfail
    rfl
  · intro p hp hfail
    have hflags := prepSD_ok hp
    subst hflags
    refine ⟨((title bo.OpName).run E s d b).1, ?_, runVV_calls E _ s d b⟩
    simp only [SD, hp, switchCase, sdIncr, callVV, if_true]
    generalize hrun : (title bo.OpName).run E s d b = res at hfail
    obtain ⟨s1, r1⟩ := res
    simp only at hfail
    subst hfail
    rfl

/-- Witness for C12: `addDD` with `incr` into a reuse target of another element
type; the first call `rn.Add(an)` fails and `rn.Add(bn)` is not made. -/
theorem C12_incr_stops_at_first_failure_witness :
    ∃ s1, DD natEnv (rowOf .add)
        ⟨[vec [1, 2], vec [3, 4], ⟨"float64", [2], .number "float64" [0, 0]⟩], []⟩ 0 1
        ⟨true, true, some 2⟩ =
        (s1, .ret none (some (.wrapOpFail (.kernel .typeMismatch)
          "addDD. Unable to add Array a to Array reused"))) ∧
      s1.calls = [.vv .Add 2 0] :=
  (C12_incr_stops_at_first_failure natEnv (rowOf .add)
    ⟨[vec [1, 2], vec [3, 4], ⟨"float64", [2], .number "float64" [0, 0]⟩], []⟩ 0 1 2
    ⟨"int", 0⟩ true (.kernel .typeMismatch)).1 ⟨0, 1, some 2, some 2, true, true, true⟩
    (by decide) (by decide)

theorem prepSD_numeric {α : Type} {h : List (Dense α)} {a : Ref} {ta : Dtype}
    {S : Shape} {t : Dtype} {x : List α}
    (ha : h[a]? = some ⟨ta, S, .number t x⟩) (safe incr : Bool) :
    prepSD h a ⟨safe, incr, none⟩ = .ok ⟨a, none, none, safe, false, incr⟩ := by
  simp [prepSD, ha, Dense.isNumber]

/-- C13 as stated fails: `mulDS([2,4], 3)` and `mulSD(3, [2,4])` with `incr` and
no reuse target do not complete; the destination view `rn` is nil, the method
call on it panics, and no kernel has been invoked. -/
theorem C13_counterexample :
    DS natEnv (rowOf .mul) ⟨[vec [2, 4]], []⟩ 0 ⟨"int", 3⟩ ⟨true, true, none⟩ =
      (⟨[vec [2, 4]], []⟩, .panicked) ∧
    SD natEnv (rowOf .mul) ⟨[vec [2, 4]], []⟩ ⟨"int", 3⟩ 0 ⟨true, true, none⟩ =
      (⟨[vec [2, 4]], []⟩, .panicked) := by
  decide

/-- C13 without the implicit accumulator.  For a numeric tensor and every
operation, when `incr` is set and no reuse target is supplied: `prepSD`
succeeds with a nil destination view and a nil reuse target, the `switch`
selects the increment case, and after `DS` and `SD` the state is the state
before the call, so no tensor has been allocated, no kernel has been invoked
(none on the absent destination view) and every buffer has its contents of
before the call. -/
theorem C13_incr_without_reuse_target {α : Type} (E : Env α) (bo : DenseBinOp) (s : State α)
    (a : Ref) (c : Scalar α) (safe : Bool) (ta : Dtype) (S : Shape) (t : Dtype) (x : List α)
    (ha : s.heap[a]? = some ⟨ta, S, .number t x⟩) :
    prepSD s.heap a ⟨safe, true, none⟩ = .ok ⟨a, none, none, safe, false, true⟩ ∧
    switchCase true false safe = .incr ∧
    (DS E bo s a c ⟨safe, true, none⟩).1 = s ∧
    (SD E bo s c a ⟨safe, true, none⟩).1 = s := by
  have hprep := prepSD_numeric ha safe true
  refine ⟨hprep, rfl, ?_, ?_⟩
  · simp only [DS, hprep, switchCase, dsIncr, callVV, if_true]
  · simp only [SD, hprep, switchCase, sdIncr, callVV, if_true]

/-- Witness for C13: `mulDS([2,4], 3)` and `mulSD(3, [2,4])` with `incr` and no
reuse target, after an earlier kernel call in the log. -/
theorem C13_incr_without_reuse_target_witness :
    prepSD [vec [2, 4]] 0 ⟨true, true, none⟩ = .ok ⟨0, none, none, true, false, true⟩ ∧
    switchCase true false true = .incr ∧
    (DS natEnv (rowOf .mul) ⟨[vec [2, 4]], [.vv .Add 0 0]⟩ 0 ⟨"int", 3⟩ ⟨true, true, none⟩).1 =
      ⟨[vec [2, 4]], [.vv .Add 0 0]⟩ ∧
    (SD natEnv (rowOf .mul) ⟨[vec [2, 4]], [.vv .Add 0 0]⟩ ⟨"int", 3⟩ 0 ⟨true, true, none⟩).1 =
      ⟨[vec [2, 4]], [.vv .Add 0 0]⟩ :=
  C13_incr_without_reuse_target natEnv (rowOf .mul) ⟨[vec [2, 4]], [.vv .Add 0 0]⟩ 0 ⟨"int", 3⟩
    true "int" [2] "int" [2, 4] rfl

/-- C14: preparation is a validation of the heap it reads, and its failure is
atomic.  `prepDDOp` and `prepSD` compute their outcome from the tensors without
producing a new heap; when they succeed, the views they return are those of
`a`, `b` and the reuse target, with the flags of the options; when they return
an error `e`, `DD`, `DS` and `SD` return a nil result with exactly `e`, and the
state after the call is the state before it: no tensor has changed and no
kernel invocation has been logged. -/
theorem C14_prep_failure_atomic {α : Type} (E : Env α) (bo : DenseBinOp) (s : State α)
    (a b : Ref) (c : Scalar α) (o : FuncOpts) :
    (∀ p, prepDDOp s.heap a b o = .ok p →
      p = ⟨a, b, o.reuseT, o.reuseT, o.safe, o.reuseT.isSome, o.incr⟩) ∧
    (∀ p, prepSD s.heap a o = .ok p →
      p = ⟨a, o.reuseT, o.reuseT, o.safe, o.reuseT.isSome, o.incr⟩) ∧
    (∀ e, prepDDOp s.heap a b o = .err e → DD E bo s a b o = (s, .ret none (some e))) ∧
    (∀ e, prepSD s.heap a o = .err e → DS E bo s a c o = (s, .ret none (some e))) ∧
    (∀ e, prepSD s.heap b o = .err e → SD E bo s c b o = (s, .ret none (some e))) := by
  refine ⟨fun p hp => prepDDOp_ok hp, fun p hp => prepSD_ok hp, ?_, ?_, ?_⟩
  · intro e he
    rw [DD, he]
  · intro e he
    rw [DS, he]
  · intro e he
    rw [SD, he]

/-- Witness for C14: the reuse target of `divDD` is not numeric-backed; the
state, with its earlier log entry, comes back as it was. -/
theorem C14_prep_failure_atomic_witness :
    DD natEnv (rowOf .div)
      ⟨[vec [8, 6], vec [2, 3], ⟨"string", [2], Data.other⟩], [.vv .Add 0 1]⟩ 0 1
      ⟨false, true, some 2⟩ =
      (⟨[vec [8, 6], vec [2, 3], ⟨"string", [2], Data.other⟩], [.vv .Add 0 1]⟩,
        .ret none (some (.errorf "Reuse is not a number"))) :=
  (C14_prep_failure_atomic natEnv (rowOf .div)
    ⟨[vec [8, 6], vec [2, 3], ⟨"string", [2], Data.other⟩], [.vv .Add 0 1]⟩ 0 1 ⟨"int", 0⟩
    ⟨false, true, some 2⟩).2.2.1 (.errorf "Reuse is not a number") (by decide)

/-! ## Facts about the safe path with a scalar -/

theorem fresh_other {α : Type} (h : List (Dense α)) (e : Dense α) (buf : List α) (q : Ref)
    (hq : q ≠ h.length) : (writeBuf (h ++ [e]) h.length buf)[q]? = h[q]? := by
  rw [writeBuf_other _ hq]
  rcases Nat.lt_or_gt_of_ne hq with hlt | hgt
  · exact List.getElem?_append_left hlt
  · rw [List.getElem?_eq_none (by simp; omega), List.getElem?_eq_none (by omega)]

/-- The safe path of `DS`: a new tensor receives the scalar kernel of the row
applied to each element of `a`. -/
theorem DS_safe_general {α : Type} (E : Env α) (bo : DenseBinOp) (s : State α) (a : Ref)
    (c : Scalar α) (t : Dtype) (S : Shape) (x : List α)
    (ha : s.heap[a]? = some ⟨t, S, .number t x⟩) (hx : x.length = S.prod) (hc : c.t = t) :
    DS E bo s a c ⟨true, false, none⟩ =
      (⟨writeBuf (s.heap ++ [⟨t, S, .number t ((List.range S.prod).map E.garbage)⟩])
          s.heap.length (x.map (fun v => bo.VecScalar.apply E v c.v)),
        s.calls ++ [.safeVS bo.VecScalar a c (some s.heap.length)]⟩,
        .ret (some s.heap.length) none) := by
  have hprep := prepSD_numeric ha true false
  have ha1 := get_append_old ha ⟨t, S, .number t ((List.range S.prod).map E.garbage)⟩
  have hd1 := get_append_new s.heap ⟨t, S, .number t ((List.range S.prod).map E.garbage)⟩
  have hk := runSafeVS_ok E bo.VecScalar
    ⟨s.heap ++ [⟨t, S, .number t ((List.range S.prod).map E.garbage)⟩], s.calls⟩ c
    ha1 hd1 hc (by simp [hx])
  simp only [DS, hprep, switchCase, dsSafe, ha, recycledDense]
  rw [hk]
  simp

/-- The safe path of `SD`, for the tensor `b` and the scalar `c`. -/
theorem SD_safe_general {α : Type} (E : Env α) (bo : DenseBinOp) (s : State α) (b : Ref)
    (c : Scalar α) (t : Dtype) (S : Shape) (y : List α)
    (hb : s.heap[b]? = some ⟨t, S, .number t y⟩) (hy : y.length = S.prod) (hc : c.t = t) :
    SD E bo s c b ⟨true, false, none⟩ =
      (⟨writeBuf (s.heap ++ [⟨t, S, .number t ((List.range S.prod).map E.garbage)⟩])
          s.heap.length (y.map (fun v => bo.ScalarVec.apply E v c.v)),
        s.calls ++ [.safeVS bo.ScalarVec b c (some s.heap.length)]⟩,
        .ret (some s.heap.length) none) := by
  have hprep := prepSD_numeric hb true false
  have hb1 := get_append_old hb ⟨t, S, .number t ((List.range S.prod).map E.garbage)⟩
  have hd1 := get_append_new s.heap ⟨t, S, .number t ((List.range S.prod).map E.garbage)⟩
  have hk := runSafeVS_ok E bo.ScalarVec
    ⟨s.heap ++ [⟨t, S, .number t ((List.range S.prod).map E.garbage)⟩], s.calls⟩ c
    hb1 hd1 hc (by simp [hy])
  simp only [SD, hprep, switchCase, sdSafe, hb, recycledDense]
  rw [hk]
  simp

theorem row_vecScalar {α : Type} (E : Env α) {bo : DenseBinOp} (hbo : bo ∈ denseBinOps)
    (v c : α) : bo.VecScalar.apply E v c = E.elem bo.OpName v c := by
  simp only [denseBinOps, List.mem_cons, List.mem_singleton, List.not_mem_nil, or_false] at hbo
  rcases hbo with h | h | h | h | h <;> subst h <;> rfl

theorem row_scalarVec {α : Type} (E : Env α) {bo : DenseBinOp} (hbo : bo ∈ denseBinOps)
    (hadd : ∀ u v, E.elem .add u v = E.elem .add v u)
    (hmul : ∀ u v, E.elem .mul u v = E.elem .mul v u)
    (v c : α) : bo.ScalarVec.apply E v c = E.elem bo.OpName c v := by
  simp only [denseBinOps, List.mem_cons, List.mem_singleton, List.not_mem_nil, or_false] at hbo
  rcases hbo with h | h | h | h | h <;> subst h
  · exact hadd v c
  · rfl
  · exact hmul v c
  · rfl
  · rfl

/-- C15: scalar operand side.  With element addition and multiplication
commutative, for each of the five rows of the table and a numeric tensor of
shape `S` with a scalar of its element type, on the safe path `OP-DS(a, c)`
returns a new tensor of shape `S` holding `a[i] OP c` and `OP-SD(c, a)` returns
a new tensor of shape `S` holding `c OP a[i]`; the tensor `a` is unchanged.  For
`sub`, `div` and `pow` the table pairs `SD` with the reversed kernel, for `add`
and `mul` with the same kernel as `DS`. -/
theorem C15_scalar_operand_side {α : Type} (E : Env α) (bo : DenseBinOp) (s : State α) (a : Ref)
    (c : Scalar α) (t : Dtype) (S : Shape) (x : List α)
    (hbo : bo ∈ denseBinOps)
    (hadd : ∀ u v, E.elem .add u v = E.elem .add v u)
    (hmul : ∀ u v, E.elem .mul u v = E.elem .mul v u)
    (ha : s.heap[a]? = some ⟨t, S, .number t x⟩) (hx : x.length = S.prod) (hc : c.t = t) :
    (∃ s1 r, DS E bo s a c ⟨true, false, none⟩ = (s1, .ret (some r) none) ∧
      s1.heap[r]? = some ⟨t, S, .number t (x.map (fun v => E.elem bo.OpName v c.v))⟩ ∧
      s.heap[r]? = none ∧ s1.heap[a]? = s.heap[a]?) ∧
    (∃ s1 r, SD E bo s c a ⟨true, false, none⟩ = (s1, .ret (some r) none) ∧
      s1.heap[r]? = some ⟨t, S, .number t (x.map (fun v => E.elem bo.OpName c.v v))⟩ ∧
      s.heap[r]? = none ∧ s1.heap[a]? = s.heap[a]?) ∧
    (bo.OpName = .add ∨ bo.OpName = .mul → bo.ScalarVec = bo.VecScalar) ∧
    (bo.OpName = .sub → bo.ScalarVec = .TransInvR) ∧
    (bo.OpName = .div → bo.ScalarVec = .ScaleInvR) ∧
    (bo.OpName = .pow → bo.ScalarVec = .PowOfR) := by
  have hd1 := get_append_new s.heap ⟨t, S, .number t ((List.range S.prod).map E.garbage)⟩
  have hra : a ≠ s.heap.length := Ne.symm (ne_length_of_get ha)
  refine ⟨⟨_, s.heap.length, DS_safe_general E bo s a c t S x ha hx hc, ?_, by simp,
      fresh_other _ _ _ a hra⟩,
    ⟨_, s.heap.length, SD_safe_general E bo s a c t S x ha hx hc, ?_, by simp,
      fresh_other _ _ _ a hra⟩, ?_⟩
  · rw [writeBuf_self hd1]
    simp only [row_vecScalar E hbo]
  · rw [writeBuf_self hd1]
    simp only [row_scalarVec E hbo hadd hmul]
  · simp only [denseBinOps, List.mem_cons, List.mem_singleton, List.not_mem_nil, or_false] at hbo
    rcases hbo with h | h | h | h | h <;> subst h <;> simp

/-- Witness for C15: `a = [2,4]`, scalar `3`, `mulDS` on the safe path gives
`[6,12]`. -/
theorem C15_scalar_operand_side_witness :
    ∃ s1 r, DS natEnv (rowOf .mul) ⟨[vec [2, 4]], []⟩ 0 ⟨"int", 3⟩ ⟨true, false, none⟩ =
        (s1, .ret (some r) none) ∧
      s1.heap[r]? = some (vec [6, 12]) ∧
      [vec [2, 4]][r]? = none ∧ s1.heap[0]? = some (vec [2, 4]) :=
  (C15_scalar_operand_side natEnv (rowOf .mul) ⟨[vec [2, 4]], []⟩ 0 ⟨"int", 3⟩ "int" [2] [2, 4]
    (rowOf_mem .mul) (fun u v => Nat.add_comm u v) (fun u v => Nat.mul_comm u v)
    rfl rfl rfl).1

/-! ## Facts about the errors that can be returned -/

theorem switchCase_ne_default (incr toReuse safe : Bool) :
    switchCase incr toReuse safe ≠ .default := by
  cases incr <;> cases toReuse <;> cases safe <;> decide

theorem runVS_err_kernel {α : Type} (E : Env α) (k : VSKernel) (s : State α) (recv : Ref)
    (c : Scalar α) (e : Err) (he : (k.run E s recv c).2 = some e) : ∃ f, e = .kernel f := by
  unfold VSKernel.run at he
  split at he
  · split at he
    · exact ⟨.typeMismatch, by simpa using he.symm⟩
    · simp at he
  · exact ⟨.typeMismatch, by simpa using he.symm⟩

theorem prepDDOp_err_known {α : Type} (h : List (Dense α)) (a b : Ref) (o : FuncOpts)
    (sf ic : Bool) (ru : Option Ref) : prepDDOp h a b o ≠ .err (.unknownState sf ic ru) := by
  intro hp
  unfold prepDDOp at hp
  repeat' split at hp
  all_goals simp_all

theorem prepSD_err_known {α : Type} (h : List (Dense α)) (a : Ref) (o : FuncOpts)
    (sf ic : Bool) (ru : Option Ref) : prepSD h a o ≠ .err (.unknownState sf ic ru) := by
  intro hp
  unfold prepSD at hp
  repeat' split at hp
  all_goals simp_all

theorem ddIncr_err_known {α : Type} (E : Env α) (bo : DenseBinOp) (s : State α) (b : Ref)
    (p : PrepDD) (r : Option Ref) (sf ic : Bool) (ru : Option Ref) :
    (ddIncr E bo s b p).2 ≠ .ret r (some (.unknownState sf ic ru)) := by
  intro h
  unfold ddIncr at h
  repeat' split at h
  all_goals simp_all

theorem ddReuse_err_known {α : Type} (E : Env α) (bo : DenseBinOp) (s : State α)
    (p : PrepDD) (r : Option Ref) (sf ic : Bool) (ru : Option Ref) :
    (ddReuse E bo s p).2 ≠ .ret r (some (.unknownState sf ic ru)) := by
  intro h
  unfold ddReuse at h
  repeat' split at h
  all_goals simp_all

theorem ddSafe_err_known {α : Type} (E : Env α) (bo : DenseBinOp) (s : State α) (a : Ref)
    (p : PrepDD) (r : Option Ref) (sf ic : Bool) (ru : Option Ref) :
    (ddSafe E bo s a p).2 ≠ .ret r (some (.unknownState sf ic ru)) := by
  intro h
  unfold ddSafe at h
  repeat' split at h
  all_goals simp_all

theorem ddInPlace_err_known {α : Type} (E : Env α) (bo : DenseBinOp) (s : State α) (a : Ref)
    (p : PrepDD) (r : Option Ref) (sf ic : Bool) (ru : Option Ref) :
    (ddInPlace E bo s a p).2 ≠ .ret r (some (.unknownState sf ic ru)) := by
  intro h
  unfold ddInPlace at h
  repeat' split at h
  all_goals simp_all

theorem dsIncr_err_known {α : Type} (E : Env α) (bo : DenseBinOp) (s : State α) (b : Scalar α)
    (p : PrepSD) (r : Option Ref) (sf ic : Bool) (ru : Option Ref) :
    (dsIncr E bo s b p).2 ≠ .ret r (some (.unknownState sf ic ru)) := by
  intro h
  unfold dsIncr at h
  repeat' split at h
  all_goals simp_all

theorem dsReuse_err_known {α : Type} (E : Env α) (bo : DenseBinOp) (s : State α) (b : Scalar α)
    (p : PrepSD) (r : Option Ref) (sf ic : Bool) (ru : Option Ref) :
    (dsReuse E bo s b p).2 ≠ .ret r (some (.unknownState sf ic ru)) := by
  intro h
  unfold dsReuse at h
  repeat' split at h
  all_goals simp_all

theorem sdIncr_err_known {α : Type} (E : Env α) (bo : DenseBinOp) (s : State α) (a : Scalar α)
    (p : PrepSD) (r : Option Ref) (sf ic : Bool) (ru : Option Ref) :
    (sdIncr E bo s a p).2 ≠ .ret r (some (.unknownState sf ic ru)) := by
  intro h
  unfold sdIncr at h
  repeat' split at h
  all_goals simp_all

theorem sdReuse_err_known {α : Type} (E : Env α) (bo : DenseBinOp) (s : State α) (a : Scalar α)
    (p : PrepSD) (r : Option Ref) (sf ic : Bool) (ru : Option Ref) :
    (sdReuse E bo s a p).2 ≠ .ret r (some (.unknownState sf ic ru)) := by
  intro h
  unfold sdReuse at h
  repeat' split at h
  all_goals simp_all

theorem dsSafe_err_known {α : Type} (E : Env α) (bo : DenseBinOp) (s : State α) (a : Ref) (b : Scalar α)
    (p : PrepSD) (r : Option Ref) (sf ic : Bool) (ru : Option Ref) :
    (dsSafe E bo s a b p).2 ≠ .ret r (some (.unknownState sf ic ru)) := by
  intro h
  unfold dsSafe at h
  repeat' split at h
  all_goals simp_all

theorem sdSafe_err_known {α : Type} (E : Env α) (bo : DenseBinOp) (s : State α) (a : Scalar α) (b : Ref)
    (p : PrepSD) (r : Option Ref) (sf ic : Bool) (ru : Option Ref) :
    (sdSafe E bo s a b p).2 ≠ .ret r (some (.unknownState sf ic ru)) := by
  intro h
  unfold sdSafe at h
  repeat' split at h
  all_goals simp_all

theorem dsInPlace_err_known {α : Type} (E : Env α) (bo : DenseBinOp) (s : State α) (a : Ref)
    (b : Scalar α) (p : PrepSD) (r : Option Ref) (sf ic : Bool) (ru : Option Ref) :
    (dsInPlace E bo s a b p).2 ≠ .ret r (some (.unknownState sf ic ru)) := by
  intro h
  unfold dsInPlace callVS at h
  simp only [Result.ret.injEq] at h
  obtain ⟨f, hf⟩ := runVS_err_kernel E bo.VecScalar s p.an b _ h.2
  exact Err.noConfusion hf

theorem sdInPlace_err_known {α : Type} (E : Env α) (bo : DenseBinOp) (s : State α)
    (a : Scalar α) (b : Ref) (p : PrepSD) (r : Option Ref) (sf ic : Bool) (ru : Option Ref) :
    (sdInPlace E bo s a b p).2 ≠ .ret r (some (.unknownState sf ic ru)) := by
  intro h
  unfold sdInPlace callVS at h
  simp only [Result.ret.injEq] at h
  obtain ⟨f, hf⟩ := runVS_err_kernel E bo.ScalarVec s p.an a _ h.2
  exact Err.noConfusion hf

/-- C16: the fallback branch is dead.  The cases `incr`, `toReuse`, `safe`,
`!safe` exhaust the values of the flags, so the `switch` never reaches
`default`; and for every row of the table, every state, all operands and all
options, none of `DD`, `DS`, `SD` returns the "Unknown state reached" error,
whatever result it is paired with. -/
theorem C16_default_dead {α : Type} (E : Env α) (bo : DenseBinOp) (s : State α) (a b : Ref)
    (c : Scalar α) (o : FuncOpts) (r : Option Ref) (sf ic : Bool) (ru : Option Ref) :
    (∀ incr toReuse safe, switchCase incr toReuse safe ≠ .default) ∧
    (DD E bo s a b o).2 ≠ .ret r (some (.unknownState sf ic ru)) ∧
    (DS E bo s a c o).2 ≠ .ret r (some (.unknownState sf ic ru)) ∧
    (SD E bo s c b o).2 ≠ .ret r (some (.unknownState sf ic ru)) := by
  refine ⟨switchCase_ne_default, ?_, ?_, ?_⟩
  · unfold DD
    split
    · simp
    · rename_i e he
      intro h
      simp only [Result.ret.injEq, Option.some.injEq] at h
      exact prepDDOp_err_known s.heap a b o sf ic ru (h.2 ▸ he)
    · rename_i p hp
      split
      · exact ddIncr_err_known E bo s b p r sf ic ru
      · exact ddReuse_err_known E bo s p r sf ic ru
      · exact ddSafe_err_known E bo s a p r sf ic ru
      · exact ddInPlace_err_known E bo s a p r sf ic ru
      · rename_i hcase
        exact absurd hcase (switchCase_ne_default _ _ _)
  · unfold DS
    split
    · simp
    · rename_i e he
      intro h
      simp only [Result.ret.injEq, Option.some.injEq] at h
      exact prepSD_err_known s.heap a o sf ic ru (h.2 ▸ he)
    · rename_i p hp
      split
      · exact dsIncr_err_known E bo s c p r sf ic ru
      · exact dsReuse_err_known E bo s c p r sf ic ru
      · exact dsSafe_err_known E bo s a c p r sf ic ru
      · exact dsInPlace_err_known E bo s a c p r sf ic ru
      · rename_i hcase
        exact absurd hcase (switchCase_ne_default _ _ _)
  · unfold SD
    split
    · simp
    · rename_i e he
      intro h
      simp only [Result.ret.injEq, Option.some.injEq] at h
      exact prepSD_err_known s.heap b o sf ic ru (h.2 ▸ he)
    · rename_i p hp
      split
      · exact sdIncr_err_known E bo s c p r sf ic ru
      · exact sdReuse_err_known E bo s c p r sf ic ru
      · exact sdSafe_err_known E bo s c b p r sf ic ru
      · exact sdInPlace_err_known E bo s c b p r sf ic ru
      · rename_i hcase
        exact absurd hcase (switchCase_ne_default _ _ _)

/-- C17: increment with the reuse target aliasing `a`.  For every operation and
numeric tensors `a ≠ b` of equal shape, the increment path of `DD` with reuse
target `a` takes the general order, calling the kernel with `a` and then with
`b`, and leaves in `a` the same buffer, `(a OP a) OP b`, that the increment
path leaves in a separate target initialised to the contents of `a`, when run
on copies of `a` and `b`. -/
theorem C17_incr_alias_a {α : Type} (E : Env α) (bo : DenseBinOp) (s s2 : State α)
    (a b a2 b2 d2 : Ref) (safe : Bool) (ta tb ta2 tb2 td2 : Dtype) (S : Shape) (t : Dtype)
    (x y : List α)
    (ha : s.heap[a]? = some ⟨ta, S, .number t x⟩)
    (hb : s.heap[b]? = some ⟨tb, S, .number t y⟩)
    (hab : a ≠ b)
    (ha2 : s2.heap[a2]? = some ⟨ta2, S, .number t x⟩)
    (hb2 : s2.heap[b2]? = some ⟨tb2, S, .number t y⟩)
    (hd2 : s2.heap[d2]? = some ⟨td2, S, .number t x⟩)
    (hd2b : d2 ≠ b2) (hxy : x.length = y.length) :
    ∃ s1 s3 buf, DD E bo s a b ⟨safe, true, some a⟩ = (s1, .ret (some a) none) ∧
      DD E bo s2 a2 b2 ⟨safe, true, some d2⟩ = (s3, .ret (some d2) none) ∧
      s1.heap[a]? = some ⟨ta, S, .number t buf⟩ ∧
      s3.heap[d2]? = some ⟨td2, S, .number t buf⟩ ∧
      buf = List.zipWith (E.elem bo.OpName) (List.zipWith (E.elem bo.OpName) x x) y ∧
      s1.calls = s.calls ++ [.vv (title bo.OpName) a a] ++ [.vv (title bo.OpName) a b] :=
  ⟨_, _, List.zipWith (E.elem bo.OpName) (List.zipWith (E.elem bo.OpName) x x) y,
    DD_incr_general E bo s a b a safe ta tb ta S t x y x ha hb ha hab rfl hxy,
    DD_incr_general E bo s2 a2 b2 d2 safe ta2 tb2 td2 S t x y x ha2 hb2 hd2 hd2b rfl hxy,
    writeBuf_twice_self ha _ _,
    writeBuf_twice_self hd2 _ _,
    rfl, rfl⟩

/-- Witness for C17: `addDD` with `a = [9,7]`, `b = [2,3]`; both runs leave
`[(9+9)+2, (7+7)+3] = [20,17]` in the target. -/
theorem C17_incr_alias_a_witness :
    ∃ s1 s3 buf,
      DD natEnv (rowOf .add) ⟨[vec [9, 7], vec [2, 3]], []⟩ 0 1 ⟨true, true, some 0⟩ =
        (s1, .ret (some 0) none) ∧
      DD natEnv (rowOf .add) ⟨[vec [9, 7], vec [2, 3], vec [9, 7]], []⟩ 0 1 ⟨true, true, some 2⟩ =
        (s3, .ret (some 2) none) ∧
      s1.heap[0]? = some ⟨"int", [2], .number "int" buf⟩ ∧
      s3.heap[2]? = some ⟨"int", [2], .number "int" buf⟩ ∧
      buf = [20, 17] ∧
      s1.calls = [] ++ [.vv (title (rowOf .add).OpName) 0 0] ++
        [.vv (title (rowOf .add).OpName) 0 1] :=
  C17_incr_alias_a natEnv (rowOf .add) ⟨[vec [9, 7], vec [2, 3]], []⟩
    ⟨[vec [9, 7], vec [2, 3], vec [9, 7]], []⟩ 0 1 0 1 2 true "int" "int" "int" "int" "int" [2]
    "int" [9, 7] [2, 3] rfl rfl (by decide) rfl rfl rfl (by decide) rfl

end DenseArith
